import Mathlib

/-!
Verification development for the DI Architect Platform annotation core.

The definitions below are a shallow embedding of the annotation data model
(`src/types/index.ts`), the corridor utilities (`src/utils/corridorUtils.ts`)
and the annotation graph store (`src/store/annotationStore.ts`).

Modelling conventions:
* JS `number` values are modelled as exact rationals (`ℚ`); integer counters
  (path-sequence `order` values) are modelled as `Int`.
* Optional JS fields (`z?`, `from?`, `to?`, ...) are modelled as `Option`.
* TS field names that are Lean keywords are renamed: `from`/`to` become
  `fromId`/`toId`, a segment's `end` becomes `endp`, an intent's `where`
  becomes `intentWhere`.
* Operations that can crash or diverge in JS return `Option`; `none` models
  the thrown exception / non-termination, as documented at each definition.
-/

namespace DIA

/-- `'no' | 'neutral' | 'yes'` (design importance / decision importance). -/
inductive Importance
  | no
  | neutral
  | yes
deriving DecidableEq, Repr

/-- The six `NodeType` string literals of `src/types/index.ts`. -/
inductive NodeType
  | entranceExit
  | decisionPoint
  | decisionZone
  | verticalConnection
  | activityDestination
  | connectingSegment
deriving DecidableEq, Repr

/-- `NodeShape` from `src/types/index.ts`. -/
inductive NodeShape
  | circle
  | star
  | square
  | polygon
  | diamond
deriving DecidableEq, Repr

/-- A path-sequence item's `type: 'node' | 'corridor'`. -/
inductive ItemType
  | node
  | corridor
deriving DecidableEq, Repr

/-- `Position`: plan coordinates with an optional floor index `z`. -/
structure Position where
  x : ℚ
  y : ℚ
  z : Option ℚ
deriving DecidableEq, Repr

/-- `CorridorSegment`. The source field `end` is a Lean keyword and is
renamed `endp`. -/
structure CorridorSegment where
  start : Position
  endp : Position
  startFloor : ℚ
  endFloor : ℚ
  isCrossFloor : Bool
deriving DecidableEq, Repr

/-- `DecisionProperties` (edge metadata). -/
structure DecisionProperties where
  importance : Importance
  rationale : List String
  rationale_other : Option String
deriving DecidableEq, Repr

/-- `DesignCues`; only the always-present `cue_medium_how` list is carried,
the remaining optional sub-fields are never written or read by the store. -/
structure DesignCues where
  cue_medium_how : List String
deriving DecidableEq, Repr

/-- `DesignIntent`. The source field `where` is a Lean keyword and is
renamed `intentWhere`. -/
structure DesignIntent where
  intentWhere : String
  how : List String
  description : Option String
  design_cues : Option DesignCues
deriving DecidableEq, Repr

/-- `Node`. The nested `space_annotation` / `behavior_expectation` /
`dp_annotation` payloads are opaque form data: no store operation inspects
them, so they are elided from the model. -/
structure Node where
  id : String
  type : NodeType
  shape : NodeShape
  position : Position
  floorIndex : ℚ
  polygon : Option (List Position)
  design_importance : Importance
deriving DecidableEq, Repr

/-- `Corridor`. `from`/`to` are Lean keywords, renamed `fromId`/`toId`.
The opaque annotation payloads are elided as for `Node`. -/
structure Corridor where
  id : String
  path : List Position
  segments : List CorridorSegment
  floorIndex : ℚ
  fromFloor : Option ℚ
  toFloor : Option ℚ
  isCrossFloor : Bool
  fromId : Option String
  toId : Option String
  design_importance : Importance
  notes : Option String
deriving DecidableEq, Repr

/-- `Edge` (derived journey edge). -/
structure Edge where
  id : String
  fromId : String
  toId : String
  design_importance : Importance
  decision_properties : DecisionProperties
  design_intent : DesignIntent
deriving DecidableEq, Repr

/-- `PathSequenceItem`. `order` is an integer counter in every code path. -/
structure PathSequenceItem where
  id : String
  type : ItemType
  order : Int
deriving DecidableEq, Repr

/-- `Floor`. -/
structure Floor where
  id : String
  name : String
  index : ℚ
  backgroundImage : String
  scale : ℚ
  pan : Position
deriving DecidableEq, Repr

/-- `ProjectIdentification`. -/
structure ProjectIdentification where
  buildingId : String
  architectId : String
  routeId : String
deriving DecidableEq, Repr

/-- `JourneyReflection`. -/
structure JourneyReflection where
  confidence : ℚ
  adherence_expectation : ℚ
  team_alignment : ℚ
  notes : Option String
deriving DecidableEq, Repr

/-- `CanvasState` (scale, pan, background image, current floor). -/
structure CanvasState where
  scale : ℚ
  pan : Position
  backgroundImage : Option String
  currentFloorIndex : ℚ
deriving DecidableEq, Repr

/-- The data-carrying part of the zustand store. Purely visual state
(selected tool, modal visibility flags, drawing buffer, floor-dimension
cache) has no interaction with the verified operations and is elided. -/
structure StoreState where
  nodes : List Node
  corridors : List Corridor
  edges : List Edge
  pathSequence : List PathSequenceItem
  floors : List Floor
  projectId : ProjectIdentification
  journeyReflection : Option JourneyReflection
  canvasState : CanvasState
  currentNode : Option Node
  currentCorridor : Option Corridor
deriving DecidableEq, Repr

/-- A corridor as read from a persisted `AnnotationData` document:
`segments` may be absent (`loadProject` regenerates them in that case). -/
structure LoadedCorridor where
  id : String
  path : List Position
  segments : Option (List CorridorSegment)
  floorIndex : ℚ
  fromFloor : Option ℚ
  toFloor : Option ℚ
  isCrossFloor : Bool
  fromId : Option String
  toId : Option String
  design_importance : Importance
  notes : Option String
deriving DecidableEq, Repr

/-- The persisted `AnnotationData` document.  The `metadata` block (version
string and created/modified timestamps) is written from the system clock by
`exportData` and never read back by `loadProject`, so it is elided. -/
structure AnnotationData where
  nodes : List Node
  corridors : List LoadedCorridor
  edges : List Edge
  pathSequence : List PathSequenceItem
  floors : List Floor
  projectId : ProjectIdentification
  journey_reflection : Option JourneyReflection
deriving DecidableEq, Repr

/-- Result type of `getElementByPosition`. -/
structure ElementRef where
  id : String
  type : ItemType
deriving DecidableEq, Repr

/-- Result type of `validateCorridorPath`. -/
structure ValidationResult where
  isValid : Bool
  errors : List String
deriving DecidableEq, Repr

/-! ## Corridor utilities (`src/utils/corridorUtils.ts`) -/

/-- `generateCorridorSegments`: one segment per consecutive vertex pair,
floors defaulting to 0 when a vertex has no `z`.  The source guards
`path.length < 2` and then loops over indices `0 .. length-2`; the
two-cons recursion below produces the same list. -/
def generateCorridorSegments : List Position → List CorridorSegment
  | p0 :: p1 :: rest =>
    { start := p0
      endp := p1
      startFloor := p0.z.getD 0
      endFloor := p1.z.getD 0
      isCrossFloor := p0.z.getD 0 != p1.z.getD 0 } :: generateCorridorSegments (p1 :: rest)
  | _ => []

/-- `getSegmentsForFloor`: segments touching the given floor with either
endpoint. -/
def getSegmentsForFloor (segments : List CorridorSegment) (floorIndex : ℚ) :
    List CorridorSegment :=
  segments.filter (fun segment =>
    segment.startFloor == floorIndex || segment.endFloor == floorIndex)

/-- `getCorridorFloorRange`: min/max of the vertices' floors (`z ?? 0`).
For an empty path the source yields `Math.min() = Infinity` and
`Math.max() = -Infinity`; that degenerate pair is modelled as `none` (the
sole consumer, the floor-span check, treats it as a non-failure either
way). -/
def getCorridorFloorRange (path : List Position) : Option (ℚ × ℚ) :=
  match path.map (fun p => p.z.getD 0) with
  | [] => none
  | f :: fs => some (fs.foldl min f, fs.foldl max f)

/-- `validateCorridorPath`: collects human-readable failure reasons, never
throws.  The three checks run in source order. -/
def validateCorridorPath (path : List Position) : ValidationResult :=
  let errors :=
    (if path.length < 2 then ["Corridor must have at least 2 vertices"] else []) ++
    (if path.any (fun p => p.z == none) then
      ["All vertices must have floor information (Z coordinate)"] else []) ++
    (match getCorridorFloorRange path with
     | some (mn, mx) =>
       if mx - mn > 5 then ["Corridor spans too many floors (max 5 floors)"] else []
     | none => [])
  { isValid := errors.isEmpty, errors := errors }

/-! ## Edge regeneration (`regenerateEdges`) -/

/-- Default `decision_properties` used for a freshly synthesized edge. -/
def defaultDecisionProperties : DecisionProperties :=
  { importance := Importance.neutral, rationale := [], rationale_other := some "" }

/-- Default `design_intent` used for a freshly synthesized edge; `where`
is the source item's id when it is a node. -/
def defaultDesignIntent (current : PathSequenceItem) : DesignIntent :=
  { intentWhere := if current.type == ItemType.node then current.id else ""
    how := []
    description := none
    design_cues := some { cue_medium_how := [] } }

/-- The edge synthesized for one consecutive pair: id `current.id-next.id`,
carrying over the first previous edge with that id when one exists. -/
def mkRegenEdge (oldEdges : List Edge) (current next : PathSequenceItem) : Edge :=
  let edgeId := current.id ++ "-" ++ next.id
  let existingEdge := oldEdges.find? (fun e => e.id == edgeId)
  { id := edgeId
    fromId := current.id
    toId := next.id
    design_importance := (existingEdge.map (fun e => e.design_importance)).getD Importance.neutral
    decision_properties :=
      (existingEdge.map (fun e => e.decision_properties)).getD defaultDecisionProperties
    design_intent :=
      (existingEdge.map (fun e => e.design_intent)).getD (defaultDesignIntent current) }

/-- The loop of `regenerateEdges` over consecutive items. -/
def edgePairs (oldEdges : List Edge) : List PathSequenceItem → List Edge
  | current :: next :: rest =>
    mkRegenEdge oldEdges current next :: edgePairs oldEdges (next :: rest)
  | _ => []

/-- Stable insertion used to model `Array.prototype.sort` with comparator
`(a, b) => a.order - b.order` (stable ascending sort per ES2019). -/
def insertByOrder (a : PathSequenceItem) : List PathSequenceItem → List PathSequenceItem
  | [] => [a]
  | b :: rest => if b.order < a.order then b :: insertByOrder a rest else a :: b :: rest

/-- Stable ascending sort of the path sequence by `order`. -/
def sortByOrder (l : List PathSequenceItem) : List PathSequenceItem :=
  l.foldr insertByOrder []

/-- `regenerateEdges` as a pure function of the previous edge collection and
the path sequence: sort by order, then synthesize one edge per consecutive
pair. -/
def regenerateEdges (oldEdges : List Edge) (pathSequence : List PathSequenceItem) :
    List Edge :=
  edgePairs oldEdges (sortByOrder pathSequence)

/-! ## Topological sequencer (`reorderPathSequence`)

The source builds two adjacency maps (`nodeConnections`,
`corridorConnections`) that are never read afterwards; that dead code is
omitted.  The depth-first walk threads a `processedItems` set, the output
sequence, and the running order counter, modelled together as `TravState`.
The JS recursion has no termination guarantee: a cycle of corridors whose
endpoint ids never get marked (because they do not occur in the path
sequence) recurses forever.  The model therefore takes a fuel bound on the
recursion depth.  A terminating run of the source nests at most
`corridors.length + 1` deep — each nesting step enters through a corridor,
and a corridor entered twice within one stack implies an unmarked cycle,
on which the source never returns — so with the generous fuel used by
`reorderRun` a `none` result models exactly the runs on which the source
does not terminate (a stack overflow in JS). -/

/-- The inputs the walk reads: the corridor collection and the (pre-mutation)
path sequence. -/
structure SeqCtx where
  corridors : List Corridor
  pathSequence : List PathSequenceItem
deriving DecidableEq, Repr

/-- Mutable state of the walk: processed ids (most recent first), the output
sequence so far, and the running order counter. -/
structure TravState where
  processed : List String
  out : List PathSequenceItem
  order : Int
deriving DecidableEq, Repr

/-- `addItemToSequence`: skip if already processed or absent from the path
sequence; otherwise mark processed and append with the running order. -/
def addItemToSequence (ctx : SeqCtx) (itemId : String) (st : TravState) : TravState :=
  if st.processed.contains itemId then st
  else
    match ctx.pathSequence.find? (fun p => p.id == itemId) with
    | none => st
    | some item =>
      { processed := itemId :: st.processed
        out := st.out ++ [{ item with order := st.order }]
        order := st.order + 1 }

/-- The inner loop of `processPath` over the corridors leaving the current
node; `rec_` is the recursive call into a destination node at one fuel level
lower. -/
def goCorridors (ctx : SeqCtx) (rec_ : String → TravState → Option TravState) :
    List Corridor → TravState → Option TravState
  | [], st => some st
  | corridor :: rest, st =>
    let st1 := addItemToSequence ctx corridor.id st
    let next : Option TravState :=
      match corridor.toId with
      | none => some st1
      | some t =>
        -- source: `if (corridor.to && !processedItems.has(corridor.to))`;
        -- an empty string is falsy in JS.
        if t.isEmpty || st1.processed.contains t then some st1 else rec_ t st1
    match next with
    | none => none
    | some st2 => goCorridors ctx rec_ rest st2

/-- `processPath`: append the node, then walk its outgoing corridors. -/
def processPathF (ctx : SeqCtx) : Nat → String → TravState → Option TravState
  | 0 => fun _ _ => none
  | fuel + 1 => fun nodeId st =>
    goCorridors ctx (processPathF ctx fuel)
      (ctx.corridors.filter (fun c => c.fromId == some nodeId))
      (addItemToSequence ctx nodeId st)

/-- Source: `node.type.includes('Entrance')`, true exactly for the
`Entrance/Exit (E)` literal among the six node types. -/
def isEntranceType : NodeType → Bool
  | NodeType.entranceExit => true
  | _ => false

/-- Start candidates: entrance nodes or nodes with no incoming corridor. -/
def startNodesOf (s : StoreState) : List Node :=
  s.nodes.filter (fun node =>
    isEntranceType node.type ||
      !(s.corridors.any (fun corridor => corridor.toId == some node.id)))

/-- The outer loop over start nodes. -/
def runStartNodes (ctx : SeqCtx) (fuel : Nat) :
    List Node → TravState → Option TravState
  | [], st => some st
  | node :: rest, st =>
    let next :=
      if st.processed.contains node.id then some st
      else processPathF ctx fuel node.id st
    match next with
    | none => none
    | some st2 => runStartNodes ctx fuel rest st2

/-- The trailing loop: append every path-sequence item never processed,
preserving relative order, with order values continuing to increment. -/
def appendRemaining (processed : List String) :
    List PathSequenceItem → Int → List PathSequenceItem
  | [], _ => []
  | item :: rest, order =>
    if processed.contains item.id then appendRemaining processed rest order
    else { item with order := order } :: appendRemaining processed rest (order + 1)

/-- `reorderPathSequence` at a given fuel: run the walk, append the
unvisited remainder, store the new sequence and regenerate edges from it
against the previous edge collection. -/
def reorderPathSequenceF (fuel : Nat) (s : StoreState) : Option StoreState :=
  let ctx : SeqCtx := { corridors := s.corridors, pathSequence := s.pathSequence }
  match runStartNodes ctx fuel (startNodesOf s) { processed := [], out := [], order := 0 } with
  | none => none
  | some st =>
    let reorderedSequence := st.out ++ appendRemaining st.processed s.pathSequence st.order
    some { s with
      pathSequence := reorderedSequence
      edges := regenerateEdges s.edges reorderedSequence }

/-- `reorderPathSequence` with the depth bound discussed above; `none`
models a non-terminating source run. -/
def reorderRun (s : StoreState) : Option StoreState :=
  reorderPathSequenceF (s.pathSequence.length + s.corridors.length + 2) s

/-! ## Store mutation operations (`src/store/annotationStore.ts`)

Operations that trigger `reorderPathSequence` return `Option StoreState`
(`none` = the sequencer does not terminate in the source). -/

/-- Re-densify order values after a removal:
`.map((item, index) => ({ ...item, order: index }))`. -/
def reindexSeq : Nat → List PathSequenceItem → List PathSequenceItem
  | _, [] => []
  | i, item :: rest => { item with order := Int.ofNat i } :: reindexSeq (i + 1) rest

/-- `addNode`: stamp current floor onto `floorIndex` and `position.z`,
append a sequence item at the end of the current order, reorder.  The
source's `design_importance || 'neutral'` fallback is the identity here
because the typed model always carries a value. -/
def addNode (s : StoreState) (node : Node) : Option StoreState :=
  let nodeWithFloor := { node with
    floorIndex := s.canvasState.currentFloorIndex
    position := { node.position with z := some s.canvasState.currentFloorIndex } }
  let newPathItem : PathSequenceItem :=
    { id := node.id, type := ItemType.node, order := Int.ofNat s.pathSequence.length }
  reorderRun { s with
    nodes := s.nodes ++ [nodeWithFloor]
    pathSequence := s.pathSequence ++ [newPathItem] }

/-- `Partial<Node>` restricted to the fields the store's callers update;
a `some` field is present in the update object. -/
structure NodeUpdate where
  type : Option NodeType := none
  shape : Option NodeShape := none
  position : Option Position := none
  floorIndex : Option ℚ := none
  polygon : Option (Option (List Position)) := none
  design_importance : Option Importance := none
deriving DecidableEq, Repr

/-- Object spread `{ ...node, ...updates }`. -/
def applyNodeUpdate (node : Node) (u : NodeUpdate) : Node :=
  { node with
    type := u.type.getD node.type
    shape := u.shape.getD node.shape
    position := u.position.getD node.position
    floorIndex := u.floorIndex.getD node.floorIndex
    polygon := u.polygon.getD node.polygon
    design_importance := u.design_importance.getD node.design_importance }

/-- `updateNode`: merge fields; when the update carries a `position`,
re-stamp its `z` from the merged node's `floorIndex`.  `currentNode` gets
the plain merge without the re-stamp, as in the source. -/
def updateNode (s : StoreState) (id : String) (updates : NodeUpdate) :
    Option StoreState :=
  let updatedNodes := s.nodes.map (fun node =>
    if node.id == id then
      let updatedNode := applyNodeUpdate node updates
      if updates.position.isSome then
        { updatedNode with
          position := { updatedNode.position with z := some updatedNode.floorIndex } }
      else updatedNode
    else node)
  let newCurrentNode :=
    match s.currentNode with
    | some cn => if cn.id == id then some (applyNodeUpdate cn updates) else some cn
    | none => none
  reorderRun { s with nodes := updatedNodes, currentNode := newCurrentNode }

/-- `deleteNode`: remove the node, cascade-delete corridors anchored to it,
drop its own path-sequence item and re-densify, reorder.  (The sequence
items of the cascade-deleted corridors are left in place, exactly as in the
source.) -/
def deleteNode (s : StoreState) (id : String) : Option StoreState :=
  reorderRun { s with
    nodes := s.nodes.filter (fun node => node.id != id)
    corridors := s.corridors.filter (fun corridor =>
      corridor.fromId != some id && corridor.toId != some id)
    pathSequence := reindexSeq 0 (s.pathSequence.filter (fun item => item.id != id)) }

/-- `moveNode`: position-only fast path; stamps `z` from the *current
floor*; does not reorder. -/
def moveNode (s : StoreState) (id : String) (position : Position) : StoreState :=
  let positionWithZ := { position with z := some s.canvasState.currentFloorIndex }
  { s with nodes := s.nodes.map (fun node =>
      if node.id == id then { node with position := positionWithZ } else node) }

/-- `path: corridor.path.map(p => ({ ...p, z: p.z ?? state.canvasState.currentFloorIndex }))`:
the z-stamping step of `addCorridor`. -/
def stampPath (s : StoreState) (path : List Position) : List Position :=
  path.map (fun p => { p with z := some (p.z.getD s.canvasState.currentFloorIndex) })

/-- `addCorridor`: stamp current floor, stamp `z` on vertices lacking one,
derive segments, derive the cross-floor flag and floor bounds, append a
sequence item, reorder.  `getCorridorFloorRange` on the stamped path equals
the source's inline `Math.min/max` over `path.map(p => p.z ?? 0)`. -/
def addCorridor (s : StoreState) (corridor : Corridor) : Option StoreState :=
  let stampedPath := stampPath s corridor.path
  let base := { corridor with
    floorIndex := s.canvasState.currentFloorIndex
    isCrossFloor := false
    path := stampedPath
    segments := generateCorridorSegments stampedPath }
  let hasFloorTransition := base.segments.any (fun seg => seg.isCrossFloor)
  let corridorWithFloor :=
    if hasFloorTransition then
      match getCorridorFloorRange stampedPath with
      | some (mn, mx) =>
        { base with isCrossFloor := true, fromFloor := some mn, toFloor := some mx }
      | none => { base with isCrossFloor := true }
      -- the `none` branch is unreachable: a cross-floor segment implies a
      -- nonempty path
    else base
  let newPathItem : PathSequenceItem :=
    { id := corridor.id, type := ItemType.corridor, order := Int.ofNat s.pathSequence.length }
  reorderRun { s with
    corridors := s.corridors ++ [corridorWithFloor]
    pathSequence := s.pathSequence ++ [newPathItem] }

/-- `Partial<Corridor>` restricted to the fields the store's callers
update. -/
structure CorridorUpdate where
  path : Option (List Position) := none
  fromId : Option (Option String) := none
  toId : Option (Option String) := none
  design_importance : Option Importance := none
  notes : Option (Option String) := none
deriving DecidableEq, Repr

/-- Object spread `{ ...corridor, ...updates }`. -/
def applyCorridorUpdate (corridor : Corridor) (u : CorridorUpdate) : Corridor :=
  { corridor with
    path := u.path.getD corridor.path
    fromId := u.fromId.getD corridor.fromId
    toId := u.toId.getD corridor.toId
    design_importance := u.design_importance.getD corridor.design_importance
    notes := u.notes.getD corridor.notes }

/-- `updateCorridor`: merge fields; when the update carries a `path`,
regenerate segments and re-derive the cross-floor fields (clearing
`fromFloor`/`toFloor` when no longer cross-floor).  `currentCorridor` gets
the plain merge, as in the source. -/
def updateCorridor (s : StoreState) (id : String) (updates : CorridorUpdate) :
    Option StoreState :=
  let updatedCorridors := s.corridors.map (fun corridor =>
    if corridor.id == id then
      let updatedCorridor := applyCorridorUpdate corridor updates
      match updates.path with
      | some newPath =>
        let segs := generateCorridorSegments newPath
        let hasFloorTransition := segs.any (fun seg => seg.isCrossFloor)
        let uc := { updatedCorridor with segments := segs, isCrossFloor := hasFloorTransition }
        if hasFloorTransition then
          match getCorridorFloorRange newPath with
          | some (mn, mx) => { uc with fromFloor := some mn, toFloor := some mx }
          | none => uc
          -- unreachable: a cross-floor segment implies a nonempty path
        else { uc with fromFloor := none, toFloor := none }
      | none => updatedCorridor
    else corridor)
  let newCurrentCorridor :=
    match s.currentCorridor with
    | some cc => if cc.id == id then some (applyCorridorUpdate cc updates) else some cc
    | none => none
  reorderRun { s with corridors := updatedCorridors, currentCorridor := newCurrentCorridor }

/-- JS element assignment `arr[i] = v` on a copied array: a negative index
sets a non-element property (the array's elements are unchanged), an index
below the length replaces, an index equal to the length appends, and a
larger index creates holes — reading such a hole as a vertex then throws a
TypeError downstream in `generateCorridorSegments`, modelled as `none`. -/
def jsArraySet (l : List Position) (i : Int) (v : Position) : Option (List Position) :=
  if i < 0 then some l
  else if i.toNat < l.length then some (l.set i.toNat v)
  else if i.toNat = l.length then some (l ++ [v])
  else none

/-- The replacement vertex of `updateCorridorVertex`:
`z: newFloor ?? newPosition.z ?? state.canvasState.currentFloorIndex`. -/
def stampVertex (s : StoreState) (newPosition : Position) (newFloor : Option ℚ) :
    Position :=
  { newPosition with
    z := some (match newFloor with
      | some f => f
      | none =>
        match newPosition.z with
        | some z => z
        | none => s.canvasState.currentFloorIndex) }

/-- `updateCorridorVertex`: replace one path vertex and delegate to
`updateCorridor`; silently returns when the corridor id is unknown. -/
def updateCorridorVertex (s : StoreState) (corridorId : String) (vertexIndex : Int)
    (newPosition : Position) (newFloor : Option ℚ) : Option StoreState :=
  match s.corridors.find? (fun c => c.id == corridorId) with
  | none => some s
  | some corridor =>
    match jsArraySet corridor.path vertexIndex (stampVertex s newPosition newFloor) with
    | none => none
    | some updatedPath => updateCorridor s corridorId { path := some updatedPath }

/-- `deleteCorridor`: remove it, drop its sequence item and re-densify,
reorder. -/
def deleteCorridor (s : StoreState) (id : String) : Option StoreState :=
  reorderRun { s with
    corridors := s.corridors.filter (fun corridor => corridor.id != id)
    pathSequence := reindexSeq 0 (s.pathSequence.filter (fun item => item.id != id)) }

/-- `addFloor`: append; the first floor also becomes current and populates
the canvas.  (The asynchronous image-dimension load is an isolated side
effect outside the data model.) -/
def addFloor (s : StoreState) (floor : Floor) : StoreState :=
  if s.floors.isEmpty then
    { s with
      floors := s.floors ++ [floor]
      canvasState := { s.canvasState with
        backgroundImage := some floor.backgroundImage
        currentFloorIndex := floor.index
        scale := floor.scale
        pan := floor.pan } }
  else { s with floors := s.floors ++ [floor] }

/-- `setCurrentFloor`: switch the canvas to an existing floor; no-op when
the index is unknown. -/
def setCurrentFloor (s : StoreState) (floorIndex : ℚ) : StoreState :=
  match s.floors.find? (fun f => f.index == floorIndex) with
  | some floor =>
    { s with canvasState := { s.canvasState with
        currentFloorIndex := floorIndex
        backgroundImage := some floor.backgroundImage
        scale := floor.scale
        pan := floor.pan } }
  | none => s

/-- `deleteFloor`: drop the floor, nodes on it, and corridors on it or
cross-floor-anchored to it; repoint the current floor if it was deleted.
Neither the path sequence nor the edges are touched, exactly as in the
source.  The background lookup models `...?.backgroundImage || null`. -/
def deleteFloor (s : StoreState) (floorIndex : ℚ) : StoreState :=
  let newFloors := s.floors.filter (fun f => f.index != floorIndex)
  let newNodes := s.nodes.filter (fun n => n.floorIndex != floorIndex)
  let newCorridors := s.corridors.filter (fun c =>
    c.floorIndex != floorIndex &&
      !(c.isCrossFloor && (c.fromFloor == some floorIndex || c.toFloor == some floorIndex)))
  let newCurrentFloor :=
    if s.canvasState.currentFloorIndex == floorIndex && !newFloors.isEmpty then
      ((newFloors.head?).map (fun f => f.index)).getD s.canvasState.currentFloorIndex
    else s.canvasState.currentFloorIndex
  { s with
    floors := newFloors
    nodes := newNodes
    corridors := newCorridors
    canvasState := { s.canvasState with
      currentFloorIndex := newCurrentFloor
      backgroundImage :=
        match newFloors.find? (fun f => f.index == newCurrentFloor) with
        | some f => if f.backgroundImage.isEmpty then none else some f.backgroundImage
        | none => none } }

/-! ## Queries -/

/-- `getVisibleNodes`: nodes on the current floor. -/
def getVisibleNodes (s : StoreState) : List Node :=
  s.nodes.filter (fun node => node.floorIndex == s.canvasState.currentFloorIndex)

/-- `getVisibleCorridors`: corridors with at least one segment touching the
current floor. -/
def getVisibleCorridors (s : StoreState) : List Corridor :=
  s.corridors.filter (fun corridor =>
    !(getSegmentsForFloor corridor.segments s.canvasState.currentFloorIndex).isEmpty)

/-- `getNodeCentroid`: polygon average for zone nodes (JS treats any present
polygon array, even an empty one, as truthy), otherwise the stored position.
For an empty polygon the source divides 0 by 0 giving NaN; no store code
path constructs such a node. -/
def getNodeCentroid (node : Node) : Position :=
  match node.shape, node.polygon with
  | NodeShape.polygon, some poly =>
    { x := (poly.map (fun p => p.x)).sum / (poly.length : ℚ)
      y := (poly.map (fun p => p.y)).sum / (poly.length : ℚ)
      z := some node.floorIndex }
  | _, _ => node.position

/-- The source compares `Math.sqrt(distSq) < tolerance`; over exact
arithmetic that holds iff `0 < tolerance` and `distSq < tolerance²`. -/
def distLt (distSq tol : ℚ) : Bool :=
  decide (0 < tol) && decide (distSq < tol * tol)

/-- Squared distance between a centroid and a query position. -/
def centroidDistSq (centroid pos : Position) : ℚ :=
  (centroid.x - pos.x) * (centroid.x - pos.x) + (centroid.y - pos.y) * (centroid.y - pos.y)

/-- Point-to-segment hit test of `getElementByPosition`: project onto the
segment, clamp the parameter to [0, 1], compare the distance with the
tolerance; a zero-length segment is skipped (`continue`). -/
def segmentDistHit (pos : Position) (tol : ℚ) (segment : CorridorSegment) : Bool :=
  let A := pos.x - segment.start.x
  let B := pos.y - segment.start.y
  let C := segment.endp.x - segment.start.x
  let D := segment.endp.y - segment.start.y
  let dot := A * C + B * D
  let lenSq := C * C + D * D
  if lenSq == 0 then false
  else
    let param := dot / lenSq
    let xx := if param < 0 then segment.start.x
      else if param > 1 then segment.endp.x
      else segment.start.x + param * C
    let yy := if param < 0 then segment.start.y
      else if param > 1 then segment.endp.y
      else segment.start.y + param * D
    let dx := pos.x - xx
    let dy := pos.y - yy
    distLt (dx * dx + dy * dy) tol

/-- The node loop of `getElementByPosition`: return on the first visible
node whose centroid is within tolerance. -/
def firstNodeHit (pos : Position) (tol : ℚ) : List Node → Option ElementRef
  | [] => none
  | node :: rest =>
    if distLt (centroidDistSq (getNodeCentroid node) pos) tol then
      some { id := node.id, type := ItemType.node }
    else firstNodeHit pos tol rest

/-- The corridor loop of `getElementByPosition`: return on the first visible
corridor one of whose current-floor segments is within tolerance. -/
def firstCorridorHit (cf : ℚ) (pos : Position) (tol : ℚ) :
    List Corridor → Option ElementRef
  | [] => none
  | corridor :: rest =>
    if (getSegmentsForFloor corridor.segments cf).any (segmentDistHit pos tol) then
      some { id := corridor.id, type := ItemType.corridor }
    else firstCorridorHit cf pos tol rest

/-- `getElementByPosition` (default tolerance 20 at the call sites): test
visible nodes first, then visible corridor segments. -/
def getElementByPosition (s : StoreState) (pos : Position) (tol : ℚ) :
    Option ElementRef :=
  match firstNodeHit pos tol (getVisibleNodes s) with
  | some r => some r
  | none => firstCorridorHit s.canvasState.currentFloorIndex pos tol (getVisibleCorridors s)

/-! ## Project export / load -/

/-- View a store corridor as a persisted one (segments present). -/
def Corridor.toLoaded (c : Corridor) : LoadedCorridor :=
  { id := c.id, path := c.path, segments := some c.segments, floorIndex := c.floorIndex
    fromFloor := c.fromFloor, toFloor := c.toFloor, isCrossFloor := c.isCrossFloor
    fromId := c.fromId, toId := c.toId, design_importance := c.design_importance
    notes := c.notes }

/-- `{ ...corridor, segments: corridor.segments || generateCorridorSegments(corridor.path) }`:
a present segments array (even an empty one) is truthy and kept. -/
def LoadedCorridor.resolve (c : LoadedCorridor) : Corridor :=
  { id := c.id, path := c.path
    segments := c.segments.getD (generateCorridorSegments c.path)
    floorIndex := c.floorIndex, fromFloor := c.fromFloor, toFloor := c.toFloor
    isCrossFloor := c.isCrossFloor, fromId := c.fromId, toId := c.toId
    design_importance := c.design_importance, notes := c.notes }

/-- `exportData`: serialize the store (metadata timestamps elided, see
`AnnotationData`). -/
def exportData (s : StoreState) : AnnotationData :=
  { nodes := s.nodes
    corridors := s.corridors.map Corridor.toLoaded
    edges := s.edges
    pathSequence := s.pathSequence
    floors := s.floors
    projectId := s.projectId
    journey_reflection := s.journeyReflection }

/-- `loadProject`: replace the collections from the document, regenerating
missing corridor segments; when floors exist, the first floor becomes
current and populates the canvas. -/
def loadProject (s : StoreState) (data : AnnotationData) : StoreState :=
  let s1 := { s with
    nodes := data.nodes
    corridors := data.corridors.map LoadedCorridor.resolve
    edges := data.edges
    pathSequence := data.pathSequence
    floors := data.floors
    projectId := data.projectId
    journeyReflection := data.journey_reflection }
  match data.floors.head? with
  | some firstFloor =>
    { s1 with canvasState := {
        scale := firstFloor.scale
        pan := firstFloor.pan
        backgroundImage := some firstFloor.backgroundImage
        currentFloorIndex := firstFloor.index } }
  | none => s1

/-! ## Specification-side notions (used only in theorem statements) -/

/-- All ids present in the node or corridor collection. -/
def storeIds (s : StoreState) : List String :=
  s.nodes.map (fun n => n.id) ++ s.corridors.map (fun c => c.id)

/-- The no-dangling-references invariant: every edge endpoint id is present
in the node or corridor collection. -/
def noDanglingEdges (s : StoreState) : Bool :=
  s.edges.all (fun e => (storeIds s).contains e.fromId && (storeIds s).contains e.toId)

/-- Every stored node's `position.z` equals its `floorIndex`. -/
def nodesZConsistent (s : StoreState) : Bool :=
  s.nodes.all (fun n => n.position.z == some n.floorIndex)

/-- The ids of a path sequence, in order. -/
def seqIdsOf (l : List PathSequenceItem) : List String :=
  l.map (fun item => item.id)

/-- `[0, 1, ..., n-1]` as integers: the dense order values. -/
def rangeInt (n : Nat) : List Int :=
  (List.range n).map Int.ofNat

/-- The edge ids synthesized for the consecutive pairs of a (sorted)
sequence. -/
def pairIds : List PathSequenceItem → List String
  | a :: b :: rest => (a.id ++ "-" ++ b.id) :: pairIds (b :: rest)
  | _ => []

/-- Invariant of the sequencer walk: processed ids are duplicate-free and
drawn from the path sequence, the output's ids are the processed ids in
visit order, and the output carries the running counter as dense orders. -/
def TravInv (ctx : SeqCtx) (st : TravState) : Prop :=
  st.processed.Nodup ∧
  (∀ pid ∈ st.processed, pid ∈ seqIdsOf ctx.pathSequence) ∧
  seqIdsOf st.out = st.processed.reverse ∧
  st.order = Int.ofNat st.out.length ∧
  st.out.map (fun item => item.order) = rangeInt st.out.length

/-- Number of distinct sequence ids not yet processed: the walk's
termination measure. -/
def remCount (ctx : SeqCtx) (st : TravState) : Nat :=
  ((seqIdsOf ctx.pathSequence).dedup).length - st.processed.length

/-- The specification-side reading of "the path's floor span exceeds 5
levels": two vertices more than 5 floors apart (floors default to 0 where
missing, as in the source). -/
def floorSpanExceeds (path : List Position) : Prop :=
  ∃ p ∈ path, ∃ q ∈ path, (q.z.getD 0) - (p.z.getD 0) > 5

/-- Consecutive-pair segments of a path, stated via `zipWith` with the
tail: the specification's formulation of the segment derivation. -/
def specSegments (path : List Position) : List CorridorSegment :=
  List.zipWith
    (fun a b =>
      { start := a, endp := b, startFloor := a.z.getD 0, endFloor := b.z.getD 0
        isCrossFloor := a.z.getD 0 != b.z.getD 0 })
    path path.tail

/-! ## Concrete fixtures for the scenario claims -/

/-- The store's initial state (no floors: current floor index 0). -/
def emptyStore : StoreState :=
  { nodes := [], corridors := [], edges := [], pathSequence := [], floors := []
    projectId := { buildingId := "", architectId := "", routeId := "" }
    journeyReflection := none
    canvasState := { scale := 1, pan := ⟨0, 0, none⟩, backgroundImage := none
                     currentFloorIndex := 0 }
    currentNode := none, currentCorridor := none }

def c1NodeA : Node :=
  { id := "A", type := NodeType.decisionPoint, shape := NodeShape.circle
    position := ⟨0, 0, none⟩, floorIndex := 0, polygon := none
    design_importance := Importance.neutral }

def c1NodeB : Node :=
  { id := "B", type := NodeType.decisionPoint, shape := NodeShape.circle
    position := ⟨1, 0, none⟩, floorIndex := 0, polygon := none
    design_importance := Importance.neutral }

def c1Corr : Corridor :=
  { id := "c", path := [⟨0, 0, none⟩, ⟨1, 0, none⟩], segments := []
    floorIndex := 0, fromFloor := none, toFloor := none, isCrossFloor := false
    fromId := some "A", toId := some "B"
    design_importance := Importance.neutral, notes := none }

/-- The failing mutation sequence for the dangling-reference invariant:
add A, add B, connect them, delete A. -/
def c1Run : Option StoreState := do
  let s1 ← addNode emptyStore c1NodeA
  let s2 ← addNode s1 c1NodeB
  let s3 ← addCorridor s2 c1Corr
  deleteNode s3 "A"

def c2Floor0 : Floor :=
  { id := "f0", name := "Floor 0", index := 0, backgroundImage := "img0"
    scale := 1, pan := ⟨0, 0, none⟩ }

def c2Floor1 : Floor :=
  { id := "f1", name := "Floor 1", index := 1, backgroundImage := "img1"
    scale := 1, pan := ⟨0, 0, none⟩ }

def c2Node : Node :=
  { id := "N", type := NodeType.decisionPoint, shape := NodeShape.circle
    position := ⟨3, 4, none⟩, floorIndex := 0, polygon := none
    design_importance := Importance.neutral }

/-- Create a node on floor 0, switch to floor 1, move the node: `moveNode`
stamps z from the current floor, not the node's floor. -/
def c2Run : Option StoreState := do
  let s0 := addFloor (addFloor emptyStore c2Floor0) c2Floor1
  let s1 ← addNode s0 c2Node
  pure (moveNode (setCurrentFloor s1 1) "N" ⟨5, 6, none⟩)

def c3Corr : Corridor :=
  { id := "c", path := [⟨0, 0, none⟩, ⟨1, 0, none⟩], segments := []
    floorIndex := 0, fromFloor := none, toFloor := none, isCrossFloor := false
    fromId := none, toId := none
    design_importance := Importance.neutral, notes := none }

def c3Base : Option StoreState := addCorridor emptyStore c3Corr

/-- Vertex index 2 on a 2-vertex path: out of range per the claim. -/
def c3Run : Option StoreState :=
  c3Base.bind (fun s => updateCorridorVertex s "c" 2 ⟨9, 9, none⟩ none)

def c4Node1 : Node :=
  { id := "N1", type := NodeType.decisionPoint, shape := NodeShape.circle
    position := ⟨0, 0, some 0⟩, floorIndex := 0, polygon := none
    design_importance := Importance.neutral }

def c4Node2 : Node :=
  { id := "N2", type := NodeType.decisionPoint, shape := NodeShape.circle
    position := ⟨12, 0, some 0⟩, floorIndex := 0, polygon := none
    design_importance := Importance.neutral }

/-- Two visible nodes; the query point is 10 away from N1 and 2 away from
N2, both within tolerance 20. -/
def c4Store : StoreState := { emptyStore with nodes := [c4Node1, c4Node2] }

def c5NodeE1 : Node :=
  { id := "E1", type := NodeType.entranceExit, shape := NodeShape.square
    position := ⟨0, 0, some 0⟩, floorIndex := 0, polygon := none
    design_importance := Importance.neutral }

def c5NodeDP1 : Node :=
  { id := "DP1", type := NodeType.decisionPoint, shape := NodeShape.circle
    position := ⟨5, 0, some 0⟩, floorIndex := 0, polygon := none
    design_importance := Importance.neutral }

def c5NodeAD1 : Node :=
  { id := "AD1", type := NodeType.activityDestination, shape := NodeShape.diamond
    position := ⟨9, 0, some 0⟩, floorIndex := 0, polygon := none
    design_importance := Importance.neutral }

def c5Corr1 : Corridor :=
  { id := "c1", path := [⟨0, 0, some 0⟩, ⟨5, 0, some 0⟩]
    segments := generateCorridorSegments [⟨0, 0, some 0⟩, ⟨5, 0, some 0⟩]
    floorIndex := 0, fromFloor := none, toFloor := none, isCrossFloor := false
    fromId := some "E1", toId := some "DP1"
    design_importance := Importance.neutral, notes := none }

def c5Corr2 : Corridor :=
  { id := "c2", path := [⟨5, 0, some 0⟩, ⟨9, 0, some 0⟩]
    segments := generateCorridorSegments [⟨5, 0, some 0⟩, ⟨9, 0, some 0⟩]
    floorIndex := 0, fromFloor := none, toFloor := none, isCrossFloor := false
    fromId := some "DP1", toId := some "AD1"
    design_importance := Importance.neutral, notes := none }

/-- The linear-path scenario store: E1, DP1, AD1 and corridors E1→DP1,
DP1→AD1, path sequence still in creation order. -/
def c5Store : StoreState :=
  { emptyStore with
    nodes := [c5NodeE1, c5NodeDP1, c5NodeAD1]
    corridors := [c5Corr1, c5Corr2]
    pathSequence :=
      [⟨"E1", ItemType.node, 0⟩, ⟨"DP1", ItemType.node, 1⟩, ⟨"AD1", ItemType.node, 2⟩,
       ⟨"c1", ItemType.corridor, 3⟩, ⟨"c2", ItemType.corridor, 4⟩] }

/-- A path sequence on which two distinct consecutive pairs synthesize the
same edge id "a-b-c". -/
def c6Seq : List PathSequenceItem :=
  [⟨"a-b", ItemType.node, 0⟩, ⟨"c", ItemType.node, 1⟩,
   ⟨"a", ItemType.node, 2⟩, ⟨"b-c", ItemType.node, 3⟩]

/-- Witness sequence for the edge-regeneration claim: two distinct plain
ids. -/
def c6WitnessSeq : List PathSequenceItem :=
  [⟨"A", ItemType.node, 0⟩, ⟨"B", ItemType.node, 1⟩]

/-- A path visiting six distinct floor indices 0..5 (floor span 5). -/
def c7PathSix : List Position :=
  [⟨0, 0, some 0⟩, ⟨0, 0, some 1⟩, ⟨0, 0, some 2⟩,
   ⟨0, 0, some 3⟩, ⟨0, 0, some 4⟩, ⟨0, 0, some 5⟩]

/-- A path with floor span 6 (floors 0 and 6). -/
def c7PathSpanSix : List Position := [⟨0, 0, some 0⟩, ⟨1, 0, some 6⟩]

def c8Corr : Corridor :=
  { id := "cx", path := [⟨0, 0, some 0⟩, ⟨10, 10, some 1⟩], segments := []
    floorIndex := 0, fromFloor := none, toFloor := none, isCrossFloor := false
    fromId := none, toId := none
    design_importance := Importance.neutral, notes := none }

/-- The corridor `c8Corr` as stored by `addCorridor` on the empty store:
one cross-floor segment, floor bounds 0 and 1. -/
def c8Stored : Corridor :=
  { c8Corr with
    path := [⟨0, 0, some 0⟩, ⟨10, 10, some 1⟩]
    segments := [{ start := ⟨0, 0, some 0⟩, endp := ⟨10, 10, some 1⟩
                   startFloor := 0, endFloor := 1, isCrossFloor := true }]
    isCrossFloor := true, fromFloor := some 0, toFloor := some 1 }

/-- The store after `addCorridor emptyStore c8Corr`. -/
def c8ResState : StoreState :=
  { emptyStore with
    corridors := [c8Stored]
    pathSequence := [⟨"cx", ItemType.corridor, 0⟩] }

/-- Two sequence items with the same id and no matching node: the trailing
loop of the sequencer re-emits both. -/
def c10DupA : StoreState :=
  { emptyStore with
    pathSequence := [⟨"X", ItemType.node, 0⟩, ⟨"X", ItemType.node, 1⟩] }

def c10NodeX : Node :=
  { id := "X", type := NodeType.decisionPoint, shape := NodeShape.circle
    position := ⟨0, 0, some 0⟩, floorIndex := 0, polygon := none
    design_importance := Importance.neutral }

/-- Two sequence items with the same id and a matching node: the walk marks
the id once and the trailing loop then drops both copies. -/
def c10DupB : StoreState :=
  { emptyStore with
    nodes := [c10NodeX]
    pathSequence := [⟨"X", ItemType.node, 0⟩, ⟨"X", ItemType.node, 1⟩] }

/-- Witness store for the out-of-range vertex claim: one corridor with an
unstamped 2-vertex path. -/
def c3WitnessStore : StoreState := { emptyStore with corridors := [c3Corr] }

/-- Witness store for the sequencer claim: one node, one matching sequence
item, no corridors. -/
def c10WitnessStore : StoreState :=
  { emptyStore with nodes := [c10NodeX], pathSequence := [⟨"X", ItemType.node, 0⟩] }

/-! Intermediate states of the `c1Run` mutation sequence, checked step by
step (one `decide` per operation). -/

def c1NodeAStamped : Node :=
  { c1NodeA with position := ⟨0, 0, some 0⟩ }

def c1NodeBStamped : Node :=
  { c1NodeB with position := ⟨1, 0, some 0⟩ }

def c1State1 : StoreState :=
  { emptyStore with
    nodes := [c1NodeAStamped]
    pathSequence := [⟨"A", ItemType.node, 0⟩] }

def c1EdgeAB : Edge :=
  { id := "A-B", fromId := "A", toId := "B"
    design_importance := Importance.neutral
    decision_properties := defaultDecisionProperties
    design_intent := { intentWhere := "A", how := [], description := none
                       design_cues := some { cue_medium_how := [] } } }

def c1State2 : StoreState :=
  { emptyStore with
    nodes := [c1NodeAStamped, c1NodeBStamped]
    pathSequence := [⟨"A", ItemType.node, 0⟩, ⟨"B", ItemType.node, 1⟩]
    edges := [c1EdgeAB] }

def c1CorrStamped : Corridor :=
  { c1Corr with
    path := [⟨0, 0, some 0⟩, ⟨1, 0, some 0⟩]
    segments := [{ start := ⟨0, 0, some 0⟩, endp := ⟨1, 0, some 0⟩
                   startFloor := 0, endFloor := 0, isCrossFloor := false }] }

def c1EdgeAc : Edge :=
  { id := "A-c", fromId := "A", toId := "c"
    design_importance := Importance.neutral
    decision_properties := defaultDecisionProperties
    design_intent := { intentWhere := "A", how := [], description := none
                       design_cues := some { cue_medium_how := [] } } }

def c1EdgecB : Edge :=
  { id := "c-B", fromId := "c", toId := "B"
    design_importance := Importance.neutral
    decision_properties := defaultDecisionProperties
    design_intent := { intentWhere := "", how := [], description := none
                       design_cues := some { cue_medium_how := [] } } }

def c1State3 : StoreState :=
  { emptyStore with
    nodes := [c1NodeAStamped, c1NodeBStamped]
    corridors := [c1CorrStamped]
    pathSequence := [⟨"A", ItemType.node, 0⟩, ⟨"c", ItemType.corridor, 1⟩,
                     ⟨"B", ItemType.node, 2⟩]
    edges := [c1EdgeAc, c1EdgecB] }

def c1EdgeBc : Edge :=
  { id := "B-c", fromId := "B", toId := "c"
    design_importance := Importance.neutral
    decision_properties := defaultDecisionProperties
    design_intent := { intentWhere := "B", how := [], description := none
                       design_cues := some { cue_medium_how := [] } } }

/-- The state after `deleteNode "A"`: the cascade-deleted corridor `c` is
gone from the corridor collection but its path-sequence entry survives, and
the regenerated edge `B-c` points at it. -/
def c1State4 : StoreState :=
  { emptyStore with
    nodes := [c1NodeBStamped]
    corridors := []
    pathSequence := [⟨"B", ItemType.node, 0⟩, ⟨"c", ItemType.corridor, 1⟩]
    edges := [c1EdgeBc] }

/-! # Theorems -/

/-! ## C1 — the no-dangling-references invariant fails after `deleteNode` -/

theorem c1_step1 : addNode emptyStore c1NodeA = some c1State1 := by decide

theorem c1_step2 : addNode c1State1 c1NodeB = some c1State2 := by decide

theorem c1_step3 : addCorridor c1State2 c1Corr = some c1State3 := by decide

theorem c1_step4 : deleteNode c1State3 "A" = some c1State4 := by decide

theorem c1Run_eq : c1Run = some c1State4 := by
  simp only [c1Run, c1_step1, Option.bind_eq_bind, Option.some_bind, c1_step2, c1_step3,
    c1_step4]

/-- C1: the claimed invariant — after any sequence of store mutations every
edge endpoint id is present in the node or corridor collection — is the
code's clear intent (spec §4.4, §7: a must-hold invariant) but the code
violates it: after `addNode A; addNode B; addCorridor c (A→B); deleteNode A`
the cascade-deleted corridor `c` keeps its path-sequence entry, and the
regenerated edge `B-c` has `to = "c"` while the only remaining ids are
`["B"]`. -/
theorem C1_deleteNode_dangling_edge :
    (c1Run.map noDanglingEdges) = some false ∧
    (c1Run.map (fun s => (s.edges.map (fun e => (e.fromId, e.toId)), storeIds s))) =
      some ([("B", "c")], ["B"]) := by
  rw [c1Run_eq]
  refine ⟨?_, ?_⟩ <;> decide

/-! ## Shared helper: a successful reorder only rewrites `pathSequence` and
`edges` -/

theorem reorderF_preserves {fuel : Nat} {s s' : StoreState}
    (h : reorderPathSequenceF fuel s = some s') :
    s'.nodes = s.nodes ∧ s'.corridors = s.corridors ∧ s'.floors = s.floors ∧
      s'.canvasState = s.canvasState := by
  simp only [reorderPathSequenceF] at h
  split at h
  · exact Option.noConfusion h
  · injection h with h
    subst h
    exact ⟨rfl, rfl, rfl, rfl⟩

theorem reorderRun_preserves {s s' : StoreState} (h : reorderRun s = some s') :
    s'.nodes = s.nodes ∧ s'.corridors = s.corridors ∧ s'.floors = s.floors ∧
      s'.canvasState = s.canvasState :=
  reorderF_preserves h

/-! ## C2 — z-stamping of node positions -/

/-- C2 counterexample: from a reachable store (two floors, one node created
on floor 0 with consistent z) the operation `moveNode` — executed while
floor 1 is current — leaves the node with `floorIndex = 0` but
`position.z = 1`, so "every stored node's position.z equals that node's
floorIndex" fails after a `moveNode`. -/
theorem C2_moveNode_counterexample :
    (c2Run.map nodesZConsistent) = some false ∧
    (c2Run.map (fun s => s.nodes.map (fun n => (n.floorIndex, n.position.z)))) =
      some [(0, some 1)] := by
  refine ⟨?_, ?_⟩ <;> decide

/-- C2 (amended): after `addNode` the added node and after `updateNode`
with a position update the updated node carry `position.z = floorIndex`;
after `moveNode`, however, the moved node's `position.z` equals the canvas'
*current floor index*, which need not equal the node's `floorIndex`. -/
theorem C2_z_stamping_amended :
    (∀ s n s₁, addNode s n = some s₁ →
      (s₁.nodes.getLast?).map (fun m => m.position.z == some m.floorIndex) = some true) ∧
    (∀ s id u s₁, u.position.isSome = true → updateNode s id u = some s₁ →
      ∀ m ∈ s₁.nodes, m.id = id → m.position.z = some m.floorIndex) ∧
    (∀ s id p, ∀ m ∈ (moveNode s id p).nodes, m.id = id →
      m.position.z = some s.canvasState.currentFloorIndex) := by
  refine ⟨?_, ?_, ?_⟩
  · intro s n s₁ h
    simp only [addNode] at h
    rw [(reorderRun_preserves h).1]
    simp
  · intro s id u s₁ hpos h m hm hid
    simp only [updateNode] at h
    rw [(reorderRun_preserves h).1] at hm
    obtain ⟨node, _, rfl⟩ := List.mem_map.1 hm
    by_cases hcase : node.id == id
    · simp only [hcase, if_true, hpos, if_pos]
    · rw [if_neg (by simp [hcase])] at hid ⊢
      exact absurd hid (by simpa using hcase)
  · intro s id p m hm hid
    simp only [moveNode] at hm
    obtain ⟨node, _, rfl⟩ := List.mem_map.1 hm
    by_cases hcase : node.id == id
    · simp only [hcase, if_true]
    · rw [if_neg (by simp [hcase])] at hid ⊢
      exact absurd hid (by simpa using hcase)

/-- C2 witness: the amended statement instantiated at concrete inputs —
`addNode` of node A into the empty store, `updateNode` of A with a new
position, and `moveNode` of N1. -/
theorem C2_z_stamping_witness :
    ((c1State1.nodes.getLast?).map (fun m => m.position.z == some m.floorIndex) =
      some true) ∧
    ((⟨"A", NodeType.decisionPoint, NodeShape.circle, ⟨7, 8, some 0⟩, 0, none,
        Importance.neutral⟩ : Node).position.z =
      some (⟨"A", NodeType.decisionPoint, NodeShape.circle, ⟨7, 8, some 0⟩, 0, none,
        Importance.neutral⟩ : Node).floorIndex) ∧
    ((⟨"N1", NodeType.decisionPoint, NodeShape.circle, ⟨50, 50, some 0⟩, 0, none,
        Importance.neutral⟩ : Node).position.z =
      some c4Store.canvasState.currentFloorIndex) := by
  refine ⟨?_, ?_, ?_⟩
  · exact C2_z_stamping_amended.1 emptyStore c1NodeA c1State1 (by decide)
  · exact C2_z_stamping_amended.2.1 c1State1 "A" { position := some ⟨7, 8, none⟩ }
      { c1State1 with nodes := [⟨"A", NodeType.decisionPoint, NodeShape.circle,
          ⟨7, 8, some 0⟩, 0, none, Importance.neutral⟩] }
      (by decide) (by decide) _ (by decide) rfl
  · exact C2_z_stamping_amended.2.2 c4Store "N1" ⟨50, 50, none⟩
      ⟨"N1", NodeType.decisionPoint, NodeShape.circle, ⟨50, 50, some 0⟩, 0, none,
        Importance.neutral⟩ (by decide) rfl

/-! ## C3 — out-of-range `updateCorridorVertex` is not a no-op -/

/-- C3 counterexample: vertex index 2 is out of range for the 2-vertex path
of corridor `c` (reached by `addCorridor` from the empty store), yet
`updateCorridorVertex` is not a silent no-op — the vertex is appended and
the stored path grows to 3 vertices. -/
theorem C3_out_of_range_counterexample :
    (c3Base.map (fun s => s.corridors.map (fun c => c.path.length))) = some [2] ∧
    (c3Run.map (fun s => s.corridors.map (fun c => c.path.length))) = some [3] := by
  refine ⟨?_, ?_⟩ <;> decide

theorem jsArraySet_of_len_lt {l : List Position} {i : Int} (v : Position)
    (h : (l.length : Int) < i) : jsArraySet l i v = none := by
  unfold jsArraySet
  rw [if_neg (by omega), if_neg (by omega), if_neg (by omega)]

theorem jsArraySet_len (l : List Position) (v : Position) :
    jsArraySet l (l.length : Int) v = some (l ++ [v]) := by
  unfold jsArraySet
  rw [if_neg (by omega), if_neg (by omega), if_pos (by omega)]

theorem jsArraySet_of_neg {l : List Position} {i : Int} (v : Position) (h : i < 0) :
    jsArraySet l i v = some l := by
  unfold jsArraySet
  rw [if_pos h]

/-- C3 (amended): for an existing corridor, an out-of-range vertex index is
not in general a no-op.  Index exactly the path length appends the stamped
vertex (with full re-derivation via `updateCorridor`); an index beyond the
path length crashes during segment regeneration (modelled `none`); a
negative index leaves the path's vertices unchanged but still re-runs
`updateCorridor` on the same path. -/
theorem C3_out_of_range_amended :
    ∀ s cid i pos nf c, s.corridors.find? (fun x => x.id == cid) = some c →
      (((c.path.length : Int) < i → updateCorridorVertex s cid i pos nf = none) ∧
       (i = (c.path.length : Int) →
         updateCorridorVertex s cid i pos nf =
           updateCorridor s cid { path := some (c.path ++ [stampVertex s pos nf]) }) ∧
       (i < 0 →
         updateCorridorVertex s cid i pos nf =
           updateCorridor s cid { path := some c.path })) := by
  intro s cid i pos nf c hfind
  refine ⟨fun hi => ?_, fun hi => ?_, fun hi => ?_⟩ <;>
    simp only [updateCorridorVertex, hfind]
  · rw [jsArraySet_of_len_lt _ hi]
  · subst hi
    rw [jsArraySet_len]
  · rw [jsArraySet_of_neg _ hi]

/-- C3 witness: the amended statement instantiated at a concrete store with
a 2-vertex corridor, at indices 5 (beyond), 2 (equal to the length) and -1
(negative). -/
theorem C3_out_of_range_witness :
    (updateCorridorVertex c3WitnessStore "c" 5 ⟨9, 9, none⟩ none = none) ∧
    (updateCorridorVertex c3WitnessStore "c" 2 ⟨9, 9, none⟩ none =
      updateCorridor c3WitnessStore "c"
        { path := some (c3Corr.path ++ [stampVertex c3WitnessStore ⟨9, 9, none⟩ none]) }) ∧
    (updateCorridorVertex c3WitnessStore "c" (-1) ⟨9, 9, none⟩ none =
      updateCorridor c3WitnessStore "c" { path := some c3Corr.path }) := by
  have hfind : c3WitnessStore.corridors.find? (fun x => x.id == "c") = some c3Corr := by
    decide
  refine ⟨?_, ?_, ?_⟩
  · exact (C3_out_of_range_amended c3WitnessStore "c" 5 ⟨9, 9, none⟩ none c3Corr hfind).1
      (by decide)
  · exact (C3_out_of_range_amended c3WitnessStore "c" 2 ⟨9, 9, none⟩ none c3Corr hfind).2.1
      (by decide)
  · exact (C3_out_of_range_amended c3WitnessStore "c" (-1) ⟨9, 9, none⟩ none c3Corr
      hfind).2.2 (by decide)

/-! ## C5 — the linear-path scenario -/

/-- C5: on the store with nodes E1 (entrance), DP1, AD1 and corridors
c1 : E1→DP1, c2 : DP1→AD1, the sequencer produces the path sequence
E1, c1, DP1, c2, AD1 with dense zero-based orders (length 5) and exactly 4
journey edges between the consecutive pairs. -/
theorem C5_linear_path_scenario :
    (reorderRun c5Store).map (fun s =>
      (s.pathSequence.map (fun it => (it.id, it.order)),
       s.edges.map (fun e => (e.fromId, e.toId)))) =
    some ([("E1", 0), ("c1", 1), ("DP1", 2), ("c2", 3), ("AD1", 4)],
          [("E1", "c1"), ("c1", "DP1"), ("DP1", "c2"), ("c2", "AD1")]) := by
  decide

/-! ## C9 — export/load round trip -/

/-- C9: loading the export of any store state (into any store) restores the
nodes, corridors (with their segments), floors and path sequence exactly. -/
theorem C9_export_load_roundtrip :
    ∀ s s₀ : StoreState,
      (loadProject s₀ (exportData s)).nodes = s.nodes ∧
      (loadProject s₀ (exportData s)).corridors = s.corridors ∧
      (loadProject s₀ (exportData s)).floors = s.floors ∧
      (loadProject s₀ (exportData s)).pathSequence = s.pathSequence := by
  intro s s₀
  have hc : (s.corridors.map Corridor.toLoaded).map LoadedCorridor.resolve = s.corridors := by
    rw [List.map_map]
    have hid : LoadedCorridor.resolve ∘ Corridor.toLoaded = id := funext fun c => rfl
    rw [hid, List.map_id]
  unfold loadProject exportData
  cases h : s.floors.head? <;> simp [hc]

/-! ## C4 — hit-testing returns the first, not the nearest, element -/

theorem firstNodeHit_eq_find? (pos : Position) (tol : ℚ) (l : List Node) :
    firstNodeHit pos tol l =
      (l.find? (fun n => distLt (centroidDistSq (getNodeCentroid n) pos) tol)).map
        (fun n => { id := n.id, type := ItemType.node }) := by
  induction l with
  | nil => rfl
  | cons a t ih =>
    by_cases hp : distLt (centroidDistSq (getNodeCentroid a) pos) tol = true
    · simp [firstNodeHit, hp]
    · simp [firstNodeHit, hp, ih]

theorem firstCorridorHit_eq_find? (cf : ℚ) (pos : Position) (tol : ℚ)
    (l : List Corridor) :
    firstCorridorHit cf pos tol l =
      (l.find? (fun c =>
          (getSegmentsForFloor c.segments cf).any (segmentDistHit pos tol))).map
        (fun c => { id := c.id, type := ItemType.corridor }) := by
  induction l with
  | nil => rfl
  | cons a t ih =>
    by_cases hp : (getSegmentsForFloor a.segments cf).any (segmentDistHit pos tol) = true
    · simp [firstCorridorHit, hp]
    · simp [firstCorridorHit, hp, ih]

/-- C4 counterexample: both visible nodes N1 and N2 are within tolerance 20
of the query point (10, 0); N2 is strictly nearer (distance 2 vs 10), yet
`getElementByPosition` returns N1 — the first node in collection order, not
the nearest qualifying element. -/
theorem C4_nearest_counterexample :
    getElementByPosition c4Store ⟨10, 0, none⟩ 20 = some ⟨"N1", ItemType.node⟩ ∧
    centroidDistSq (getNodeCentroid c4Node2) ⟨10, 0, none⟩ <
      centroidDistSq (getNodeCentroid c4Node1) ⟨10, 0, none⟩ ∧
    distLt (centroidDistSq (getNodeCentroid c4Node2) ⟨10, 0, none⟩) 20 = true := by
  refine ⟨?_, ?_, ?_⟩
  · norm_num [getElementByPosition, firstNodeHit, getVisibleNodes, c4Store, emptyStore,
      c4Node1, c4Node2, getNodeCentroid, centroidDistSq, distLt]
  · norm_num [c4Node1, c4Node2, getNodeCentroid, centroidDistSq]
  · norm_num [c4Node2, getNodeCentroid, centroidDistSq, distLt]

/-- C4 (amended): `getElementByPosition` tests visible nodes before visible
corridor segments and returns the *first* qualifying element in collection
order (not the nearest): the first visible node within tolerance if any,
else the first visible corridor one of whose current-floor segments is
within tolerance, else none.  In particular, whenever any node is within
tolerance the result is a node — node hits take priority over corridor
hits. -/
theorem C4_first_hit_amended :
    ∀ s pos tol,
      (getElementByPosition s pos tol =
        (match (getVisibleNodes s).find?
            (fun n => distLt (centroidDistSq (getNodeCentroid n) pos) tol) with
         | some n => some { id := n.id, type := ItemType.node }
         | none =>
           match (getVisibleCorridors s).find? (fun c =>
               (getSegmentsForFloor c.segments s.canvasState.currentFloorIndex).any
                 (segmentDistHit pos tol)) with
           | some c => some { id := c.id, type := ItemType.corridor }
           | none => none)) ∧
      ((∃ n, n ∈ getVisibleNodes s ∧
          distLt (centroidDistSq (getNodeCentroid n) pos) tol = true) →
        ∃ nid, getElementByPosition s pos tol =
          some { id := nid, type := ItemType.node }) := by
  intro s pos tol
  constructor
  · unfold getElementByPosition
    rw [firstNodeHit_eq_find?, firstCorridorHit_eq_find?]
    cases hn : (getVisibleNodes s).find?
        (fun n => distLt (centroidDistSq (getNodeCentroid n) pos) tol) with
    | some n => rfl
    | none =>
      cases hc : (getVisibleCorridors s).find? (fun c =>
          (getSegmentsForFloor c.segments s.canvasState.currentFloorIndex).any
            (segmentDistHit pos tol)) <;> rfl
  · rintro ⟨n, hn, hd⟩
    have hsome : ((getVisibleNodes s).find?
        (fun n => distLt (centroidDistSq (getNodeCentroid n) pos) tol)).isSome :=
      List.find?_isSome.2 ⟨n, hn, hd⟩
    obtain ⟨m, hm⟩ := Option.isSome_iff_exists.1 hsome
    refine ⟨m.id, ?_⟩
    unfold getElementByPosition
    rw [firstNodeHit_eq_find?, hm]
    rfl

/-- C4 witness: the amended characterization and the node-priority
implication instantiated on the concrete two-node store. -/
theorem C4_first_hit_witness :
    (getElementByPosition c4Store ⟨10, 0, none⟩ 20 =
      (match (getVisibleNodes c4Store).find?
          (fun n => distLt (centroidDistSq (getNodeCentroid n) ⟨10, 0, none⟩) 20) with
       | some n => some { id := n.id, type := ItemType.node }
       | none =>
         match (getVisibleCorridors c4Store).find? (fun c =>
             (getSegmentsForFloor c.segments c4Store.canvasState.currentFloorIndex).any
               (segmentDistHit ⟨10, 0, none⟩ 20)) with
         | some c => some { id := c.id, type := ItemType.corridor }
         | none => none)) ∧
    (∃ nid, getElementByPosition c4Store ⟨10, 0, none⟩ 20 =
      some { id := nid, type := ItemType.node }) := by
  refine ⟨(C4_first_hit_amended c4Store ⟨10, 0, none⟩ 20).1,
    (C4_first_hit_amended c4Store ⟨10, 0, none⟩ 20).2 ⟨c4Node1, ?_, ?_⟩⟩
  · decide
  · norm_num [distLt, centroidDistSq, getNodeCentroid, c4Node1]

/-! ## C6 — edge regeneration: structure, carry-over, and idempotence -/

theorem mkRegenEdge_cons_skip {x : Edge} {a b : PathSequenceItem} (E : List Edge)
    (h : ¬x.id = a.id ++ "-" ++ b.id) :
    mkRegenEdge (x :: E) a b = mkRegenEdge E a b := by
  simp [mkRegenEdge, h]

theorem mkRegenEdge_cons_self (e₀ : Edge) (rest : List Edge) (a b : PathSequenceItem)
    (hid : e₀.id = a.id ++ "-" ++ b.id) (hfrom : e₀.fromId = a.id)
    (hto : e₀.toId = b.id) : mkRegenEdge (e₀ :: rest) a b = e₀ := by
  have hp : (fun e => e.id == a.id ++ "-" ++ b.id) e₀ = true := by simp [hid]
  obtain ⟨i0, f0, t0, m0, d0, di0⟩ := e₀
  simp only at hid hfrom hto
  simp [mkRegenEdge, hp, hid, hfrom, hto]

theorem edgePairs_cons_skip (x : Edge) (E : List Edge) :
    ∀ l, x.id ∉ pairIds l → edgePairs (x :: E) l = edgePairs E l
  | [], _ => rfl
  | [_], _ => rfl
  | a :: b :: rest, h => by
    have h' : ¬x.id = a.id ++ "-" ++ b.id ∧ x.id ∉ pairIds (b :: rest) := by
      simpa [pairIds] using h
    show mkRegenEdge (x :: E) a b :: edgePairs (x :: E) (b :: rest) =
      mkRegenEdge E a b :: edgePairs E (b :: rest)
    rw [mkRegenEdge_cons_skip E h'.1, edgePairs_cons_skip x E (b :: rest) h'.2]

theorem edgePairs_map_id (E : List Edge) :
    ∀ l, (edgePairs E l).map (fun e => e.id) = pairIds l
  | [] => rfl
  | [_] => rfl
  | a :: b :: rest => by
    show ((mkRegenEdge E a b :: edgePairs E (b :: rest)).map fun e => e.id) =
      (a.id ++ "-" ++ b.id) :: pairIds (b :: rest)
    rw [List.map_cons, edgePairs_map_id E (b :: rest)]
    rfl

theorem edgePairs_length (E : List Edge) :
    ∀ l, (edgePairs E l).length = l.length - 1
  | [] => rfl
  | [_] => rfl
  | a :: b :: rest => by
    show (mkRegenEdge E a b :: edgePairs E (b :: rest)).length = (a :: b :: rest).length - 1
    rw [List.length_cons, edgePairs_length E (b :: rest)]
    simp

theorem edgePairs_idem (E : List Edge) :
    ∀ l, (pairIds l).Nodup → edgePairs (edgePairs E l) l = edgePairs E l
  | [], _ => rfl
  | [_], _ => rfl
  | a :: b :: rest, h => by
    obtain ⟨h1, h2⟩ := List.nodup_cons.1 h
    show mkRegenEdge (mkRegenEdge E a b :: edgePairs E (b :: rest)) a b ::
        edgePairs (mkRegenEdge E a b :: edgePairs E (b :: rest)) (b :: rest) =
      mkRegenEdge E a b :: edgePairs E (b :: rest)
    rw [mkRegenEdge_cons_self _ _ _ _ rfl rfl rfl,
      edgePairs_cons_skip _ _ (b :: rest) h1,
      edgePairs_idem E (b :: rest) h2]

theorem edgePairs_carry (E : List Edge) :
    ∀ (l : List PathSequenceItem) (e : Edge), e ∈ edgePairs E l →
      ∀ e₀, E.find? (fun o => o.id == e.id) = some e₀ →
        e.design_importance = e₀.design_importance ∧
        e.decision_properties = e₀.decision_properties ∧
        e.design_intent = e₀.design_intent
  | [], e, he => (List.not_mem_nil e he).elim
  | [_], e, he => (List.not_mem_nil e he).elim
  | a :: b :: rest, e, he => by
    intro e₀ hfind
    rcases List.mem_cons.1 he with rfl | hmem
    · have hf : E.find? (fun o => o.id == a.id ++ "-" ++ b.id) = some e₀ := hfind
      simp [mkRegenEdge, hf]
    · exact edgePairs_carry E (b :: rest) e hmem e₀ hfind

theorem mkRegenEdge_of_find_none (E : List Edge) (a b : PathSequenceItem)
    (h : E.find? (fun o => o.id == a.id ++ "-" ++ b.id) = none) :
    mkRegenEdge E a b =
      { id := a.id ++ "-" ++ b.id
        fromId := a.id
        toId := b.id
        design_importance := Importance.neutral
        decision_properties := defaultDecisionProperties
        design_intent := defaultDesignIntent a } := by
  simp [mkRegenEdge, h]

theorem edgePairs_eq_zip (E : List Edge) :
    ∀ l : List PathSequenceItem,
      edgePairs E l = (l.zip l.tail).map (fun p => mkRegenEdge E p.1 p.2)
  | [] => rfl
  | [_] => rfl
  | a :: b :: rest => by
    show mkRegenEdge E a b :: edgePairs E (b :: rest) = _
    rw [edgePairs_eq_zip E (b :: rest)]
    rfl

/-- C6 counterexample: on the path sequence with item ids
a-b, c, a, b-c (orders 0..3) the consecutive pairs (a-b, c) and (a, b-c)
both synthesize edge id "a-b-c"; on the second run the lookup for the later
pair finds the earlier pair's edge and carries over its design_intent, so
running `regenerateEdges` twice in a row with no intervening change does
not reproduce the same edge set. -/
theorem C6_idempotence_counterexample :
    regenerateEdges (regenerateEdges [] c6Seq) c6Seq ≠ regenerateEdges [] c6Seq := by
  decide

/-- C6 (amended): `regenerateEdges` is a deterministic function of the
path sequence and the previous edge collection: it synthesizes exactly one
edge per consecutive pair of the order-sorted sequence (one fewer edge than
sequence items), each with id "{current.id}-{next.id}" and endpoints
current.id/next.id; `design_importance`, `decision_properties` and
`design_intent` are carried over verbatim from the first previous edge with
that id when one existed, and are the default empty decision metadata
(neutral importance, empty rationale, intent `where` = current.id for a
node and "" otherwise, empty `how` and cues) when none existed; and calling
it twice in a row with no intervening change to the path sequence produces
an identical edge set *provided* no two distinct consecutive pairs
synthesize the same edge id (which holds in particular whenever item ids
contain no "-"). -/
theorem C6_regenerate_amended :
    ∀ (oldEdges : List Edge) (seq : List PathSequenceItem),
      (regenerateEdges oldEdges seq =
        ((sortByOrder seq).zip (sortByOrder seq).tail).map
          (fun p => mkRegenEdge oldEdges p.1 p.2)) ∧
      ((regenerateEdges oldEdges seq).map (fun e => e.id) = pairIds (sortByOrder seq)) ∧
      ((regenerateEdges oldEdges seq).length = (sortByOrder seq).length - 1) ∧
      (∀ e ∈ regenerateEdges oldEdges seq, ∀ e₀,
        oldEdges.find? (fun o => o.id == e.id) = some e₀ →
          e.design_importance = e₀.design_importance ∧
          e.decision_properties = e₀.decision_properties ∧
          e.design_intent = e₀.design_intent) ∧
      (∀ current next : PathSequenceItem,
        oldEdges.find? (fun o => o.id == current.id ++ "-" ++ next.id) = none →
          mkRegenEdge oldEdges current next =
            { id := current.id ++ "-" ++ next.id
              fromId := current.id
              toId := next.id
              design_importance := Importance.neutral
              decision_properties := defaultDecisionProperties
              design_intent := defaultDesignIntent current }) ∧
      ((pairIds (sortByOrder seq)).Nodup →
        regenerateEdges (regenerateEdges oldEdges seq) seq = regenerateEdges oldEdges seq) := by
  intro oldEdges seq
  exact ⟨edgePairs_eq_zip _ _, edgePairs_map_id _ _, edgePairs_length _ _,
    fun e he => edgePairs_carry _ _ e he,
    fun current next h => mkRegenEdge_of_find_none _ _ _ h,
    fun h => edgePairs_idem oldEdges (sortByOrder seq) h⟩

/-- C6 witness: the amended statement instantiated at the previous edge set
[A-B] and the two-item sequence A, B — the carried-over edge equals the
previous one, the pair with no previous edge (empty previous collection)
gets the default metadata, and the second run reproduces the first. -/
theorem C6_regenerate_witness :
    ((regenerateEdges [c1EdgeAB] c6WitnessSeq).map (fun e => e.id) =
      pairIds (sortByOrder c6WitnessSeq)) ∧
    (c1EdgeAB.design_importance = c1EdgeAB.design_importance ∧
     c1EdgeAB.decision_properties = c1EdgeAB.decision_properties ∧
     c1EdgeAB.design_intent = c1EdgeAB.design_intent) ∧
    (mkRegenEdge [] ⟨"A", ItemType.node, 0⟩ ⟨"B", ItemType.node, 1⟩ =
      { id := "A" ++ "-" ++ "B"
        fromId := "A"
        toId := "B"
        design_importance := Importance.neutral
        decision_properties := defaultDecisionProperties
        design_intent := defaultDesignIntent ⟨"A", ItemType.node, 0⟩ }) ∧
    (regenerateEdges (regenerateEdges [c1EdgeAB] c6WitnessSeq) c6WitnessSeq =
      regenerateEdges [c1EdgeAB] c6WitnessSeq) := by
  refine ⟨(C6_regenerate_amended [c1EdgeAB] c6WitnessSeq).2.1,
    (C6_regenerate_amended [c1EdgeAB] c6WitnessSeq).2.2.2.1 c1EdgeAB (by decide) c1EdgeAB
      (by decide),
    (C6_regenerate_amended [] c6WitnessSeq).2.2.2.2.1 ⟨"A", ItemType.node, 0⟩
      ⟨"B", ItemType.node, 1⟩ (by decide),
    (C6_regenerate_amended [c1EdgeAB] c6WitnessSeq).2.2.2.2.2 (by decide)⟩

/-! ## C7 — corridor path validation -/

theorem foldl_min_mem (fs : List ℚ) (f : ℚ) : fs.foldl min f ∈ f :: fs := by
  induction fs generalizing f with
  | nil => simp
  | cons a t ih =>
    rw [List.foldl_cons]
    rcases List.mem_cons.1 (ih (min f a)) with h1 | h1
    · rcases min_choice f a with hm | hm
      · rw [h1, hm]; exact List.mem_cons_self _ _
      · rw [h1, hm]; exact List.mem_cons_of_mem _ (List.mem_cons_self _ _)
    · exact List.mem_cons_of_mem _ (List.mem_cons_of_mem _ h1)

theorem foldl_min_le (fs : List ℚ) (f : ℚ) :
    fs.foldl min f ≤ f ∧ ∀ x ∈ fs, fs.foldl min f ≤ x := by
  induction fs generalizing f with
  | nil => exact ⟨le_refl f, by simp⟩
  | cons a t ih =>
    have h := ih (min f a)
    simp only [List.foldl_cons]
    refine ⟨h.1.trans (min_le_left f a), fun x hx => ?_⟩
    rcases List.mem_cons.1 hx with rfl | hx
    · exact h.1.trans (min_le_right f x)
    · exact h.2 x hx

theorem foldl_max_mem (fs : List ℚ) (f : ℚ) : fs.foldl max f ∈ f :: fs := by
  induction fs generalizing f with
  | nil => simp
  | cons a t ih =>
    rw [List.foldl_cons]
    rcases List.mem_cons.1 (ih (max f a)) with h1 | h1
    · rcases max_choice f a with hm | hm
      · rw [h1, hm]; exact List.mem_cons_self _ _
      · rw [h1, hm]; exact List.mem_cons_of_mem _ (List.mem_cons_self _ _)
    · exact List.mem_cons_of_mem _ (List.mem_cons_of_mem _ h1)

theorem foldl_max_ge (fs : List ℚ) (f : ℚ) :
    f ≤ fs.foldl max f ∧ ∀ x ∈ fs, x ≤ fs.foldl max f := by
  induction fs generalizing f with
  | nil => exact ⟨le_refl f, by simp⟩
  | cons a t ih =>
    have h := ih (max f a)
    simp only [List.foldl_cons]
    refine ⟨(le_max_left f a).trans h.1, fun x hx => ?_⟩
    rcases List.mem_cons.1 hx with rfl | hx
    · exact (le_max_right f x).trans h.1
    · exact h.2 x hx

/-- The floor range returned by `getCorridorFloorRange` is attained and
bounds every vertex floor. -/
theorem floorRange_spec {path : List Position} {mn mx : ℚ}
    (h : getCorridorFloorRange path = some (mn, mx)) :
    mn ∈ path.map (fun v => v.z.getD 0) ∧ mx ∈ path.map (fun v => v.z.getD 0) ∧
      ∀ f ∈ path.map (fun v => v.z.getD 0), mn ≤ f ∧ f ≤ mx := by
  unfold getCorridorFloorRange at h
  cases hm : path.map (fun p => p.z.getD 0) with
  | nil => rw [hm] at h; cases h
  | cons f fs =>
    rw [hm] at h
    simp only [Option.some.injEq, Prod.mk.injEq] at h
    obtain ⟨h1, h2⟩ := h
    subst h1
    subst h2
    refine ⟨foldl_min_mem fs f, foldl_max_mem fs f, fun x hx => ?_⟩
    rcases List.mem_cons.1 hx with rfl | hx
    · exact ⟨(foldl_min_le fs x).1, (foldl_max_ge fs x).1⟩
    · exact ⟨(foldl_min_le fs f).2 x hx, (foldl_max_ge fs f).2 x hx⟩

/-- C7 counterexample: the path visiting the six distinct floor indices
0, 1, 2, 3, 4, 5 (floor span exactly 5) *passes* `validateCorridorPath` —
"a path spanning 6 distinct floor indices fails" is wrong, since the check
compares max − min against 5. -/
theorem C7_six_floors_counterexample :
    (validateCorridorPath c7PathSix).isValid = true ∧
    ((c7PathSix.map (fun p => p.z.getD 0)).dedup).length = 6 := by
  constructor
  · have hr : getCorridorFloorRange c7PathSix = some (0, 5) := by decide
    have hgt : ¬((5 : ℚ) - 0 > 5) := by norm_num
    simp only [validateCorridorPath, hr]
    rw [if_neg hgt]
    decide
  · decide

/-- C7 (amended): `validateCorridorPath` never throws (it is a total
function into a list of human-readable reasons, with `isValid` defined as
emptiness of that list) and fails exactly when the path has fewer than 2
vertices, or some vertex lacks a floor (z) value, or two vertex floors are
more than 5 levels apart (max − min > 5).  The too-many-floors message is
present exactly in the last case; a span of exactly 5 — even across 6
distinct floor indices — passes that check. -/
theorem C7_validate_amended :
    ∀ path : List Position,
      ((validateCorridorPath path).isValid = (validateCorridorPath path).errors.isEmpty) ∧
      ((validateCorridorPath path).isValid = false ↔
        (path.length < 2 ∨ (∃ p ∈ path, p.z = none) ∨ floorSpanExceeds path)) ∧
      ("Corridor spans too many floors (max 5 floors)" ∈
          (validateCorridorPath path).errors ↔ floorSpanExceeds path) := by
  intro path
  have hval : (validateCorridorPath path).isValid =
      (validateCorridorPath path).errors.isEmpty := rfl
  have hmz : ((path.any fun p => p.z == none) = true) ↔ ∃ p ∈ path, p.z = none := by
    simp [List.any_eq_true]
  cases hr : getCorridorFloorRange path with
  | none =>
    have hpath : path = [] := by
      unfold getCorridorFloorRange at hr
      cases hpm : path.map (fun p => p.z.getD 0) with
      | nil => exact List.map_eq_nil_iff.1 hpm
      | cons f fs => rw [hpm] at hr; cases hr
    subst hpath
    have hne1 : ("Corridor spans too many floors (max 5 floors)" : String) ≠
        "Corridor must have at least 2 vertices" := by decide
    refine ⟨rfl, ?_, ?_⟩
    · simp [validateCorridorPath, getCorridorFloorRange, floorSpanExceeds]
    · simp [validateCorridorPath, getCorridorFloorRange, floorSpanExceeds, hne1]
  | some pr =>
    obtain ⟨mn, mx⟩ := pr
    have hs := floorRange_spec hr
    have hspan_iff : floorSpanExceeds path ↔ mx - mn > 5 := by
      constructor
      · rintro ⟨p, hp, q, hq, hd⟩
        have hq' := hs.2.2 _ (List.mem_map_of_mem _ hq)
        have hp' := hs.2.2 _ (List.mem_map_of_mem _ hp)
        have h1 := hq'.2
        have h2 := hp'.1
        linarith
      · intro hgt
        obtain ⟨p, hp, hpv⟩ := List.mem_map.1 hs.1
        obtain ⟨q, hq, hqv⟩ := List.mem_map.1 hs.2.1
        exact ⟨p, hp, q, hq, by rw [hpv, hqv]; linarith⟩
    have herr : (validateCorridorPath path).errors =
        (if path.length < 2 then ["Corridor must have at least 2 vertices"] else []) ++
        (if path.any (fun p => p.z == none) then
          ["All vertices must have floor information (Z coordinate)"] else []) ++
        (if mx - mn > 5 then ["Corridor spans too many floors (max 5 floors)"] else []) := by
      simp only [validateCorridorPath, hr]
    have hne1 : ("Corridor spans too many floors (max 5 floors)" : String) ≠
        "Corridor must have at least 2 vertices" := by decide
    have hne2 : ("Corridor spans too many floors (max 5 floors)" : String) ≠
        "All vertices must have floor information (Z coordinate)" := by decide
    refine ⟨hval, ?_, ?_⟩
    · rw [hval, herr]
      by_cases h1 : path.length < 2 <;>
        by_cases h2 : (path.any fun p => p.z == none) = true <;>
        by_cases h3 : mx - mn > 5 <;>
        simp [h1, h2, h3, hspan_iff, ← hmz]
    · rw [herr]
      by_cases h1 : path.length < 2 <;>
        by_cases h2 : (path.any fun p => p.z == none) = true <;>
        by_cases h3 : mx - mn > 5 <;>
        simp [h1, h2, h3, hspan_iff, hne1, hne2]

/-- C7 witness: a 2-vertex path with floors 0 and 6 (span 6) fails, with
the explicit too-many-floors message present. -/
theorem C7_validate_witness :
    (validateCorridorPath c7PathSpanSix).isValid = false ∧
    "Corridor spans too many floors (max 5 floors)" ∈
      (validateCorridorPath c7PathSpanSix).errors := by
  have hspan : floorSpanExceeds c7PathSpanSix :=
    ⟨⟨0, 0, some 0⟩, by decide, ⟨1, 0, some 6⟩, by decide, by norm_num⟩
  exact ⟨(C7_validate_amended c7PathSpanSix).2.1.mpr (Or.inr (Or.inr hspan)),
    (C7_validate_amended c7PathSpanSix).2.2.mpr hspan⟩

/-! ## C8 — segment derivation in `addCorridor` -/

theorem generateCorridorSegments_eq_spec :
    ∀ path, generateCorridorSegments path = specSegments path
  | [] => rfl
  | [_] => rfl
  | p0 :: p1 :: rest => by
    show _ :: generateCorridorSegments (p1 :: rest) = _
    rw [generateCorridorSegments_eq_spec (p1 :: rest)]
    rfl

theorem generateCorridorSegments_flag :
    ∀ path, ∀ seg ∈ generateCorridorSegments path,
      seg.isCrossFloor = (seg.startFloor != seg.endFloor)
  | [], seg, h => (List.not_mem_nil seg h).elim
  | [_], seg, h => (List.not_mem_nil seg h).elim
  | p0 :: p1 :: rest, seg, h => by
    rcases List.mem_cons.1 h with rfl | hmem
    · rfl
    · exact generateCorridorSegments_flag (p1 :: rest) seg hmem

theorem generateCorridorSegments_length :
    ∀ path : List Position, (generateCorridorSegments path).length = path.length - 1
  | [] => rfl
  | [_] => rfl
  | p0 :: p1 :: rest => by
    show (_ :: generateCorridorSegments (p1 :: rest)).length = _
    rw [List.length_cons, generateCorridorSegments_length (p1 :: rest)]
    simp

theorem range_some_of_segments_ne :
    ∀ {path : List Position}, generateCorridorSegments path ≠ [] →
      ∃ mn mx, getCorridorFloorRange path = some (mn, mx)
  | [], h => absurd rfl h
  | [_], h => absurd rfl h
  | _ :: _ :: _, _ => ⟨_, _, rfl⟩

/-- C8: the corridor stored by `addCorridor` carries exactly the n−1
consecutive-pair segments of the z-stamped path, each segment's
`isCrossFloor` equals startFloor ≠ endFloor, the corridor's `isCrossFloor`
is true iff some segment crosses floors, and in that case
`fromFloor`/`toFloor` are the minimum/maximum floor index across the path;
in particular the path [(0,0,0), (10,10,1)] yields exactly 1 segment with
isCrossFloor true, fromFloor 0, toFloor 1. -/
theorem C8_addCorridor_segments :
    (∀ s c s₁, addCorridor s c = some s₁ →
      ∃ stored, s₁.corridors = s.corridors ++ [stored] ∧
        stored.path = stampPath s c.path ∧
        stored.segments = specSegments (stampPath s c.path) ∧
        (2 ≤ c.path.length → stored.segments.length + 1 = c.path.length) ∧
        (∀ seg ∈ stored.segments, seg.isCrossFloor = (seg.startFloor != seg.endFloor)) ∧
        stored.isCrossFloor = stored.segments.any (fun seg => seg.isCrossFloor) ∧
        (stored.isCrossFloor = true →
          ∃ mn mx, stored.fromFloor = some mn ∧ stored.toFloor = some mx ∧
            mn ∈ (stampPath s c.path).map (fun p => p.z.getD 0) ∧
            mx ∈ (stampPath s c.path).map (fun p => p.z.getD 0) ∧
            ∀ f ∈ (stampPath s c.path).map (fun p => p.z.getD 0), mn ≤ f ∧ f ≤ mx)) ∧
    ((addCorridor emptyStore c8Corr).map (fun s =>
        s.corridors.map (fun c => (c.segments.length, c.isCrossFloor, c.fromFloor, c.toFloor)))
      = some [(1, true, some 0, some 1)]) := by
  constructor
  · intro s c s₁ h
    simp only [addCorridor] at h
    have hlen : (generateCorridorSegments (stampPath s c.path)).length =
        c.path.length - 1 := by
      rw [generateCorridorSegments_length]
      simp [stampPath]
    by_cases hft : ((generateCorridorSegments (stampPath s c.path)).any
        (fun seg => seg.isCrossFloor)) = true
    · have hne : generateCorridorSegments (stampPath s c.path) ≠ [] := by
        intro hnil
        rw [hnil] at hft
        simp at hft
      obtain ⟨mn, mx, hr⟩ := range_some_of_segments_ne hne
      rw [if_pos hft, hr] at h
      refine ⟨_, (reorderRun_preserves h).2.1, rfl, generateCorridorSegments_eq_spec _,
        fun h2 => ?_, fun seg hseg => generateCorridorSegments_flag _ seg hseg,
        hft.symm, fun _ => ⟨mn, mx, rfl, rfl, ?_, ?_, ?_⟩⟩
      · show (generateCorridorSegments (stampPath s c.path)).length + 1 = c.path.length
        omega
      · exact (floorRange_spec hr).1
      · exact (floorRange_spec hr).2.1
      · exact (floorRange_spec hr).2.2
    · rw [if_neg hft] at h
      refine ⟨_, (reorderRun_preserves h).2.1, rfl, generateCorridorSegments_eq_spec _,
        fun h2 => ?_, fun seg hseg => generateCorridorSegments_flag _ seg hseg,
        (by simpa using hft), fun habs => ?_⟩
      · show (generateCorridorSegments (stampPath s c.path)).length + 1 = c.path.length
        omega
      · exact absurd habs (by simp)
  · decide

/-! ## C10 — what the sequencer preserves -/

theorem contains_iff_mem {l : List String} {a : String} :
    l.contains a = true ↔ a ∈ l := by
  simp [List.contains]

theorem rangeInt_succ (n : Nat) : rangeInt (n + 1) = rangeInt n ++ [Int.ofNat n] := by
  simp [rangeInt, List.range_succ]

/-- C10 counterexample: the sequencer does not preserve "the same item ids,
each exactly once".  With two sequence items both carrying id X and no
matching node, the trailing loop re-emits both (id X appears twice in the
output); with a matching node X present, the walk marks X and the trailing
loop then drops both copies (2 input items become 1). -/
theorem C10_duplicate_ids_counterexample :
    ((reorderRun c10DupA).map (fun s => seqIdsOf s.pathSequence)) = some ["X", "X"] ∧
    ((reorderRun c10DupB).map (fun s => s.pathSequence.length)) = some 1 ∧
    c10DupB.pathSequence.length = 2 := by
  refine ⟨?_, ?_, ?_⟩ <;> decide

/-- `addItemToSequence` preserves the walk invariant and only grows the
processed set. -/
theorem addItem_inv {ctx : SeqCtx} {st : TravState} (itemId : String)
    (h : TravInv ctx st) :
    TravInv ctx (addItemToSequence ctx itemId st) ∧
      st.processed ⊆ (addItemToSequence ctx itemId st).processed := by
  unfold addItemToSequence
  by_cases hc : st.processed.contains itemId = true
  · rw [if_pos hc]
    exact ⟨h, List.Subset.refl _⟩
  · rw [if_neg hc]
    cases hf : ctx.pathSequence.find? (fun p => p.id == itemId) with
    | none => exact ⟨h, List.Subset.refl _⟩
    | some item =>
      have hmemseq : item ∈ ctx.pathSequence := List.mem_of_find?_eq_some hf
      have hid : item.id = itemId := by simpa using List.find?_some hf
      have hnotmem : itemId ∉ st.processed := fun hm => hc (contains_iff_mem.2 hm)
      obtain ⟨hnd, hsub, hids, hord, hmap⟩ := h
      refine ⟨⟨?_, ?_, ?_, ?_, ?_⟩, ?_⟩
      · exact List.nodup_cons.2 ⟨hnotmem, hnd⟩
      · intro pid hpid
        rcases List.mem_cons.1 hpid with rfl | hp
        · rw [← hid]
          exact List.mem_map_of_mem _ hmemseq
        · exact hsub pid hp
      · simp only [seqIdsOf] at hids ⊢
        simp [hids, hid]
      · simp only [List.length_append, List.length_cons, List.length_nil]
        rw [hord]
        simp
      · simp only [List.map_append, List.map_cons, List.map_nil, hmap,
          List.length_append, List.length_cons, List.length_nil]
        rw [hord, show st.out.length + (0 + 1) = st.out.length + 1 by omega,
          rangeInt_succ]
      · exact fun x hx => List.mem_cons_of_mem _ hx

/-- When the id occurs in the path sequence and is not yet processed,
`addItemToSequence` marks it (the processed set grows by exactly one). -/
theorem addItem_marks {ctx : SeqCtx} {st : TravState} {itemId : String}
    (hmem : itemId ∈ seqIdsOf ctx.pathSequence) (hnp : itemId ∉ st.processed) :
    (addItemToSequence ctx itemId st).processed.length = st.processed.length + 1 := by
  have hc : ¬(st.processed.contains itemId = true) := fun h =>
    hnp (contains_iff_mem.1 h)
  have hfind : (ctx.pathSequence.find? (fun p => p.id == itemId)).isSome := by
    apply List.find?_isSome.2
    obtain ⟨item, hitem, hidv⟩ := List.mem_map.1 hmem
    exact ⟨item, hitem, by simp [hidv]⟩
  obtain ⟨item, hf⟩ := Option.isSome_iff_exists.1 hfind
  unfold addItemToSequence
  rw [if_neg hc, hf]
  simp

/-- A duplicate-free processed set drawn from the sequence ids is no longer
than the deduplicated id list. -/
theorem processed_length_le {ctx : SeqCtx} {st : TravState} (h : TravInv ctx st) :
    st.processed.length ≤ ((seqIdsOf ctx.pathSequence).dedup).length := by
  have hsub : st.processed ⊆ (seqIdsOf ctx.pathSequence).dedup := fun x hx =>
    List.mem_dedup.2 (h.2.1 x hx)
  exact (h.1.subperm hsub).length_le

/-- Under the coverage hypotheses (every corridor's nonempty `to` id occurs
in the path sequence) every walk call terminates within the fuel bound,
preserving the invariant and only growing the processed set. -/
theorem processPathF_total (ctx : SeqCtx)
    (H3 : ∀ c ∈ ctx.corridors, ∀ t, c.toId = some t → t.isEmpty = false →
      t ∈ seqIdsOf ctx.pathSequence) :
    ∀ fuel t st, TravInv ctx st → t ∈ seqIdsOf ctx.pathSequence →
      t ∉ st.processed → remCount ctx st < fuel →
      ∃ st', processPathF ctx fuel t st = some st' ∧ TravInv ctx st' ∧
        st.processed ⊆ st'.processed := by
  intro fuel
  induction fuel with
  | zero => intro t st _ _ _ h; omega
  | succ fuel ih =>
    have GO : ∀ cs, (∀ c ∈ cs, c ∈ ctx.corridors) → ∀ st, TravInv ctx st →
        remCount ctx st < fuel →
        ∃ st', goCorridors ctx (processPathF ctx fuel) cs st = some st' ∧
          TravInv ctx st' ∧ st.processed ⊆ st'.processed := by
      intro cs
      induction cs with
      | nil =>
        intro _ st hinv _
        exact ⟨st, rfl, hinv, List.Subset.refl _⟩
      | cons c rest ihc =>
        intro hcs st hinv hrc
        obtain ⟨hinv1, hsub1⟩ := addItem_inv c.id hinv
        have hrc1 : remCount ctx (addItemToSequence ctx c.id st) < fuel := by
          have hlen := (hinv.1.subperm hsub1).length_le
          unfold remCount at hrc ⊢
          omega
        have hrest : ∀ c' ∈ rest, c' ∈ ctx.corridors := fun c' hc' =>
          hcs c' (List.mem_cons_of_mem _ hc')
        cases hto : c.toId with
        | none =>
          obtain ⟨st', hgo, hinv', hsub'⟩ :=
            ihc hrest (addItemToSequence ctx c.id st) hinv1 hrc1
          refine ⟨st', ?_, hinv', hsub1.trans hsub'⟩
          simp only [goCorridors, hto]
          exact hgo
        | some tgt =>
          by_cases hskip :
              (tgt.isEmpty ||
                (addItemToSequence ctx c.id st).processed.contains tgt) = true
          · obtain ⟨st', hgo, hinv', hsub'⟩ :=
              ihc hrest (addItemToSequence ctx c.id st) hinv1 hrc1
            refine ⟨st', ?_, hinv', hsub1.trans hsub'⟩
            simp only [goCorridors, hto]
            rw [if_pos hskip]
            exact hgo
          · have hskip0 := hskip
            rw [Bool.or_eq_true, not_or] at hskip
            obtain ⟨hie', hnc'⟩ := hskip
            have hie : tgt.isEmpty = false := Bool.eq_false_iff.2 hie'
            have hnmem : tgt ∉ (addItemToSequence ctx c.id st).processed :=
              fun hm => hnc' (contains_iff_mem.2 hm)
            have htid : tgt ∈ seqIdsOf ctx.pathSequence :=
              H3 c (hcs c (List.mem_cons_self _ _)) tgt hto hie
            obtain ⟨st2, hpp, hinv2, hsub2⟩ :=
              ih tgt (addItemToSequence ctx c.id st) hinv1 htid hnmem hrc1
            have hrc2 : remCount ctx st2 < fuel := by
              have hlen := (hinv1.1.subperm hsub2).length_le
              unfold remCount at hrc1 ⊢
              omega
            obtain ⟨st', hgo, hinv', hsub'⟩ := ihc hrest st2 hinv2 hrc2
            refine ⟨st', ?_, hinv', (hsub1.trans hsub2).trans hsub'⟩
            simp only [goCorridors, hto]
            rw [if_neg hskip0, hpp]
            exact hgo
    intro t st hinv htmem htnp hrc
    obtain ⟨hinv1, hsub1⟩ := addItem_inv t hinv
    have hmark := addItem_marks htmem htnp
    have hD := processed_length_le hinv1
    have hrc1 : remCount ctx (addItemToSequence ctx t st) < fuel := by
      unfold remCount at hrc ⊢
      omega
    obtain ⟨st', hgo, hinv', hsub'⟩ :=
      GO (ctx.corridors.filter (fun c => c.fromId == some t))
        (fun c hc => List.mem_of_mem_filter hc) (addItemToSequence ctx t st) hinv1 hrc1
    exact ⟨st', hgo, hinv', hsub1.trans hsub'⟩

/-- The start-node loop terminates under the same hypotheses. -/
theorem runStartNodes_total (ctx : SeqCtx)
    (H3 : ∀ c ∈ ctx.corridors, ∀ t, c.toId = some t → t.isEmpty = false →
      t ∈ seqIdsOf ctx.pathSequence) (fuel : Nat) :
    ∀ ns st, (∀ n ∈ ns, n.id ∈ seqIdsOf ctx.pathSequence) → TravInv ctx st →
      remCount ctx st < fuel →
      ∃ st', runStartNodes ctx fuel ns st = some st' ∧ TravInv ctx st' ∧
        st.processed ⊆ st'.processed := by
  intro ns
  induction ns with
  | nil =>
    intro st _ hinv _
    exact ⟨st, rfl, hinv, List.Subset.refl _⟩
  | cons n rest ihn =>
    intro st hns hinv hrc
    have hrest : ∀ n' ∈ rest, n'.id ∈ seqIdsOf ctx.pathSequence := fun n' h =>
      hns n' (List.mem_cons_of_mem _ h)
    by_cases hcp : st.processed.contains n.id = true
    · obtain ⟨st', hrun, hinv', hsub'⟩ := ihn st hrest hinv hrc
      refine ⟨st', ?_, hinv', hsub'⟩
      simp only [runStartNodes]
      rw [if_pos hcp]
      exact hrun
    · have hnp : n.id ∉ st.processed := fun hm => hcp (contains_iff_mem.2 hm)
      obtain ⟨st2, hpp, hinv2, hsub2⟩ := processPathF_total ctx H3 fuel n.id st hinv
        (hns n (List.mem_cons_self _ _)) hnp hrc
      have hrc2 : remCount ctx st2 < fuel := by
        have hlen := (hinv.1.subperm hsub2).length_le
        unfold remCount at hrc ⊢
        omega
      obtain ⟨st', hrun, hinv', hsub'⟩ := ihn st2 hrest hinv2 hrc2
      refine ⟨st', ?_, hinv', hsub2.trans hsub'⟩
      simp only [runStartNodes]
      rw [if_neg hcp, hpp]
      exact hrun

/-- The trailing loop emits exactly the unprocessed sequence items, in
order. -/
theorem appendRemaining_ids (processed : List String) :
    ∀ (seq : List PathSequenceItem) (ord : Int),
      seqIdsOf (appendRemaining processed seq ord) =
        seqIdsOf (seq.filter (fun it => !processed.contains it.id))
  | [], _ => rfl
  | item :: rest, ord => by
    by_cases hc : processed.contains item.id = true
    · have hmem : item.id ∈ processed := contains_iff_mem.1 hc
      simp [appendRemaining, List.filter_cons, hmem,
        appendRemaining_ids processed rest ord]
    · have hmem : item.id ∉ processed := fun hm => hc (contains_iff_mem.2 hm)
      have hrec := appendRemaining_ids processed rest (ord + 1)
      simp only [seqIdsOf] at hrec
      simp [appendRemaining, List.filter_cons, hmem, seqIdsOf, hrec]

/-- The trailing loop assigns consecutive integer orders starting from its
counter. -/
theorem appendRemaining_orders (processed : List String) :
    ∀ (seq : List PathSequenceItem) (a : Nat),
      (appendRemaining processed seq (Int.ofNat a)).map (fun it => it.order) =
        (List.range (appendRemaining processed seq (Int.ofNat a)).length).map
          (fun i => Int.ofNat (a + i))
  | [], _ => rfl
  | item :: rest, a => by
    by_cases hc : processed.contains item.id = true
    · simp only [appendRemaining]
      rw [if_pos hc]
      exact appendRemaining_orders processed rest a
    · simp only [appendRemaining]
      rw [if_neg hc]
      have hsucc : (Int.ofNat a) + 1 = Int.ofNat (a + 1) := rfl
      rw [List.map_cons, List.length_cons, hsucc,
        appendRemaining_orders processed rest (a + 1), List.range_succ_eq_map,
        List.map_cons, List.map_map]
      simp [Function.comp, Nat.add_assoc, Nat.add_comm, Nat.add_left_comm]

theorem rangeInt_add (a b : Nat) :
    rangeInt (a + b) = rangeInt a ++ (List.range b).map (fun i => Int.ofNat (a + i)) := by
  simp [rangeInt, List.range_add, List.map_map, Function.comp]

/-- C10 (amended): on any store whose path-sequence ids are duplicate-free
and cover every node id and every corridor's nonempty `to` id, the
sequencer terminates and outputs a path sequence with exactly the same item
ids, each exactly once (a permutation of the input ids), and with order
values assigned densely from 0 in order of appension. -/
theorem C10_reorder_amended :
    ∀ s : StoreState,
      (seqIdsOf s.pathSequence).Nodup →
      (∀ n ∈ s.nodes, n.id ∈ seqIdsOf s.pathSequence) →
      (∀ c ∈ s.corridors, ∀ t, c.toId = some t → t.isEmpty = false →
        t ∈ seqIdsOf s.pathSequence) →
      ∃ s', reorderRun s = some s' ∧
        (seqIdsOf s'.pathSequence).Perm (seqIdsOf s.pathSequence) ∧
        s'.pathSequence.map (fun item => item.order) =
          rangeInt s.pathSequence.length := by
  intro s h1 h2 h3
  have hinv0 : TravInv (SeqCtx.mk s.corridors s.pathSequence) ⟨[], [], 0⟩ := by
    refine ⟨List.nodup_nil, ?_, rfl, rfl, rfl⟩
    intro pid hpid
    exact (List.not_mem_nil pid hpid).elim
  have hrc0 : remCount (SeqCtx.mk s.corridors s.pathSequence) ⟨[], [], 0⟩ <
      s.pathSequence.length + s.corridors.length + 2 := by
    unfold remCount
    have hd : ((seqIdsOf s.pathSequence).dedup).length ≤
        (seqIdsOf s.pathSequence).length := (List.dedup_sublist _).length_le
    have hl : (seqIdsOf s.pathSequence).length = s.pathSequence.length := by
      simp [seqIdsOf]
    simp only [List.length_nil]
    omega
  have hns : ∀ n ∈ startNodesOf s, n.id ∈ seqIdsOf s.pathSequence := fun n hn =>
    h2 n (List.mem_of_mem_filter hn)
  obtain ⟨stF, hrun, hinvF, _⟩ :=
    runStartNodes_total (SeqCtx.mk s.corridors s.pathSequence) h3
      (s.pathSequence.length + s.corridors.length + 2) (startNodesOf s) ⟨[], [], 0⟩
      hns hinv0 hrc0
  obtain ⟨hnd, hsubIds, hids, hord, hmap⟩ := hinvF
  simp only [seqIdsOf] at hids
  -- the ids appended by the trailing loop
  have hremids : seqIdsOf (appendRemaining stF.processed s.pathSequence stF.order) =
      seqIdsOf (s.pathSequence.filter (fun it => !stF.processed.contains it.id)) :=
    appendRemaining_ids stF.processed s.pathSequence stF.order
  have hremnd : (seqIdsOf (s.pathSequence.filter
      (fun it => !stF.processed.contains it.id))).Nodup := by
    have hsub :=
      (@List.filter_sublist _ (fun it => !stF.processed.contains it.id)
        s.pathSequence).map (fun it => it.id)
    simp only [seqIdsOf]
    exact List.Nodup.sublist hsub h1
  have hfilmem : ∀ x, x ∈ seqIdsOf (s.pathSequence.filter
      (fun it => !stF.processed.contains it.id)) ↔
      (x ∈ seqIdsOf s.pathSequence ∧ x ∉ stF.processed) := by
    intro x
    simp only [seqIdsOf, List.mem_map, List.mem_filter]
    constructor
    · rintro ⟨it, ⟨hit, hq⟩, rfl⟩
      rw [Bool.not_eq_true'] at hq
      refine ⟨⟨it, hit, rfl⟩, fun hm => ?_⟩
      have hc := contains_iff_mem.2 hm
      rw [hq] at hc
      exact Bool.noConfusion hc
    · rintro ⟨⟨it, hit, rfl⟩, hnp⟩
      refine ⟨it, ⟨hit, ?_⟩, rfl⟩
      rw [Bool.not_eq_true']
      exact Bool.eq_false_iff.2 (fun hc => hnp (contains_iff_mem.1 hc))
  have hnewids : seqIdsOf (stF.out ++
      appendRemaining stF.processed s.pathSequence stF.order) =
      stF.processed.reverse ++
        seqIdsOf (s.pathSequence.filter (fun it => !stF.processed.contains it.id)) := by
    have h := hremids
    simp only [seqIdsOf] at h ⊢
    rw [List.map_append, hids, h]
  have hndL : (stF.processed.reverse ++
      seqIdsOf (s.pathSequence.filter
        (fun it => !stF.processed.contains it.id))).Nodup := by
    refine List.Nodup.append (List.nodup_reverse.2 hnd) hremnd ?_
    intro x hx1 hx2
    exact ((hfilmem x).1 hx2).2 (List.mem_reverse.1 hx1)
  have hiff : ∀ x, x ∈ (stF.processed.reverse ++
      seqIdsOf (s.pathSequence.filter (fun it => !stF.processed.contains it.id))) ↔
      x ∈ seqIdsOf s.pathSequence := by
    intro x
    rw [List.mem_append, List.mem_reverse, hfilmem x]
    constructor
    · rintro (hx | ⟨hx, _⟩)
      · exact hsubIds x hx
      · exact hx
    · intro hx
      by_cases hp : x ∈ stF.processed
      · exact Or.inl hp
      · exact Or.inr ⟨hx, hp⟩
  have hperm : (seqIdsOf (stF.out ++
      appendRemaining stF.processed s.pathSequence stF.order)).Perm
      (seqIdsOf s.pathSequence) := by
    rw [hnewids]
    exact (List.perm_ext_iff_of_nodup hndL h1).2 hiff
  have hlen : stF.out.length +
      (appendRemaining stF.processed s.pathSequence stF.order).length =
      s.pathSequence.length := by
    have hplen := hperm.length_eq
    simpa [seqIdsOf] using hplen
  have hremord : (appendRemaining stF.processed s.pathSequence stF.order).map
      (fun item => item.order) =
      (List.range (appendRemaining stF.processed s.pathSequence stF.order).length).map
        (fun i => Int.ofNat (stF.out.length + i)) := by
    have h := appendRemaining_orders stF.processed s.pathSequence stF.out.length
    rw [← hord] at h
    exact h
  have horders : (stF.out ++
      appendRemaining stF.processed s.pathSequence stF.order).map
      (fun item => item.order) = rangeInt s.pathSequence.length := by
    rw [List.map_append, hmap, hremord, ← hlen, rangeInt_add]
  have hreo : reorderRun s = some
      { s with
        pathSequence := stF.out ++
          appendRemaining stF.processed s.pathSequence stF.order
        edges := regenerateEdges s.edges
          (stF.out ++ appendRemaining stF.processed s.pathSequence stF.order) } := by
    simp only [reorderRun, reorderPathSequenceF]
    rw [hrun]
  exact ⟨_, hreo, hperm, horders⟩

/-- C10 witness: the amended statement instantiated at the one-node store
whose single sequence item covers the node id. -/
theorem C10_reorder_witness :
    ∃ s', reorderRun c10WitnessStore = some s' ∧
      (seqIdsOf s'.pathSequence).Perm (seqIdsOf c10WitnessStore.pathSequence) ∧
      s'.pathSequence.map (fun item => item.order) =
        rangeInt c10WitnessStore.pathSequence.length :=
  C10_reorder_amended c10WitnessStore (by decide) (by decide) (by decide)

/-- C8 witness: the general statement instantiated at the empty store and
the cross-floor corridor of the spec's scenario. -/
theorem C8_addCorridor_segments_witness :
    ∃ stored, c8ResState.corridors = emptyStore.corridors ++ [stored] ∧
      stored.path = stampPath emptyStore c8Corr.path ∧
      stored.segments = specSegments (stampPath emptyStore c8Corr.path) ∧
      (2 ≤ c8Corr.path.length → stored.segments.length + 1 = c8Corr.path.length) ∧
      (∀ seg ∈ stored.segments, seg.isCrossFloor = (seg.startFloor != seg.endFloor)) ∧
      stored.isCrossFloor = stored.segments.any (fun seg => seg.isCrossFloor) ∧
      (stored.isCrossFloor = true →
        ∃ mn mx, stored.fromFloor = some mn ∧ stored.toFloor = some mx ∧
          mn ∈ (stampPath emptyStore c8Corr.path).map (fun p => p.z.getD 0) ∧
          mx ∈ (stampPath emptyStore c8Corr.path).map (fun p => p.z.getD 0) ∧
          ∀ f ∈ (stampPath emptyStore c8Corr.path).map (fun p => p.z.getD 0),
            mn ≤ f ∧ f ≤ mx) :=
  C8_addCorridor_segments.1 emptyStore c8Corr c8ResState (by decide)

end DIA
